import Mathlib

/-!
Verification development for the terrain generator and world-synchronization
model of a 2D mining game (Rust sources: `world.rs`, `procedural_functions.rs`).

Modelling conventions:
* machine integers (`usize`, `u64`, `i16`, `i32`) are `Nat`/`Int`; the values
  manipulated here are far below any overflow boundary, and the source never
  relies on wrapping;
* `f32` arithmetic is idealized as exact rational arithmetic (`ℚ`);
* the fixed-size `[[Option<Block>; CHUNK_WIDTH]; CHUNK_HEIGHT]` grid is a total
  function `Nat → Nat → Option Block`; only indices inside the grid bounds are
  ever meaningful, and equality contracts quantify over in-bounds indices only;
* external library code (std `DefaultHasher`, `rand`'s `StdRng`/`gen_range`,
  `rand_distr`'s `Binomial`) is modelled by computable functions honouring the
  documented contracts (e.g. `gen_range lo hi` lands in `[lo, hi)`);
* repository functions that are only declared, not present, in the sources
  (`generate_perlin_noise`, `perlin_slice`, `generate_chunk_biome_change`) are
  modelled from the specification, and are marked as such.
-/

/-- Grid height of a chunk (`CHUNK_HEIGHT` in `world.rs`). -/
def CHUNK_HEIGHT : Nat := 64

/-- Grid width of a chunk (`CHUNK_WIDTH` in `world.rs`). -/
def CHUNK_WIDTH : Nat := 128

/-- Number of chunks kept generated below the lowest player (`GEN_CHUNKS_AHEAD`). -/
def GEN_CHUNKS_AHEAD : Nat := 3

/-- The hard-coded base seed (`BASE_SEED` in `world.rs`). -/
def BASE_SEED : Nat := 82981925813

/-- Cave carving threshold (`PERLIN_CAVE_THRESHOLD` in `world.rs`). -/
def PERLIN_CAVE_THRESHOLD : ℚ := 1/4

/-- The 16 block types of `world.rs`. -/
inductive BlockType where
  | Sand
  | Limestone
  | Basalt
  | Granite
  | Diabase
  | Gabbro
  | Clay
  | Coal
  | Iron
  | Quartz
  | Labradorite
  | Peridot
  | CaveVoid
  | PalmTreeBlock
  | Leaves
  | Trunk
  deriving DecidableEq, Repr

/-- `BlockType::is_real_block` from `world.rs`. -/
def BlockType.is_real_block : BlockType → Bool
  | BlockType.CaveVoid => false
  | BlockType.PalmTreeBlock => false
  | _ => true

/-- The six biomes of `world.rs` (`BiomeType`). -/
inductive BiomeType where
  | Sand
  | Sedimentary
  | Basalt
  | Felsic
  | Mafic
  | Ultramafic
  deriving DecidableEq, Repr

/-- `BiomeType::primary_block` from `world.rs`. -/
def BiomeType.primary_block : BiomeType → BlockType
  | BiomeType.Sand => BlockType.Sand
  | BiomeType.Sedimentary => BlockType.Limestone
  | BiomeType.Basalt => BlockType.Basalt
  | BiomeType.Felsic => BlockType.Granite
  | BiomeType.Mafic => BlockType.Diabase
  | BiomeType.Ultramafic => BlockType.Gabbro

/-- `BiomeType::ore_block` from `world.rs`. -/
def BiomeType.ore_block : BiomeType → BlockType
  | BiomeType.Sand => BlockType.Clay
  | BiomeType.Sedimentary => BlockType.Coal
  | BiomeType.Basalt => BlockType.Iron
  | BiomeType.Felsic => BlockType.Quartz
  | BiomeType.Mafic => BlockType.Labradorite
  | BiomeType.Ultramafic => BlockType.Peridot

/-- A block: its type plus the optional presentation entity handle
(`Block` in `world.rs`; the bevy `Entity` id is modelled as a `Nat`). -/
structure Block where
  block_type : BlockType
  entity : Option Nat
  deriving DecidableEq, Repr

/-- An ore vein (`Vein` in `world.rs`, as constructed by
`generate_random_vein` in `procedural_functions.rs`). `end_x`/`end_y` are
signed (`i16` in the source) and `thickness_sq` is an `f32`, idealized as `ℚ`. -/
structure Vein where
  block_type : BlockType
  chunk_number : Nat
  start_x : Nat
  start_y : Nat
  end_x : ℤ
  end_y : ℤ
  thickness_sq : ℚ
  deriving DecidableEq, Repr

/-- The block grid of one chunk: row-major `blocks[y][x]`. -/
def Grid : Type := Nat → Nat → Option Block

/-- Write one cell of a grid (models `c.blocks[r][c] = v`). -/
def updateGrid (g : Grid) (r c : Nat) (v : Option Block) : Grid :=
  fun r' c' => if r' = r ∧ c' = c then v else g r' c'

/-- The all-empty grid (`[[None; CHUNK_WIDTH]; CHUNK_HEIGHT]`). -/
def emptyGrid : Grid := fun _ _ => none

/-- A chunk: its grid plus its depth index (`Chunk` in `world.rs`). -/
structure Chunk where
  blocks : Grid
  chunk_number : Nat

/-- A terrain: the ordered list of chunks (`Terrain` in `world.rs`). -/
structure Terrain where
  chunks : List Chunk

/-- List lookup with default (models safe indexing into a `Vec`). -/
def listGetD {α : Type} : List α → Nat → α → α
  | [], _, d => d
  | a :: _, 0, _ => a
  | _ :: l, n + 1, d => listGetD l n d

theorem listGetD_nil {α : Type} (n : Nat) (d : α) : listGetD [] n d = d := rfl

theorem listGetD_cons_zero {α : Type} (a : α) (l : List α) (d : α) :
    listGetD (a :: l) 0 d = a := rfl

theorem listGetD_cons_succ {α : Type} (a : α) (l : List α) (n : Nat) (d : α) :
    listGetD (a :: l) (n + 1) d = listGetD l n d := rfl

/-- `DestroyBlockError` from `world.rs`. -/
inductive DestroyBlockError where
  | InvalidX
  | ChunkNotLoaded
  | BlockDoesntExist
  deriving DecidableEq, Repr

/-- The chunk-list traversal inside `server::destroy_block`: find the first
chunk with the wanted number; clear the cell if it holds a block. Returns the
result together with the resulting chunk list (the Rust code mutates in
place). -/
def destroyInChunks (row x cn : Nat) : List Chunk → Except DestroyBlockError Block × List Chunk
  | [] => (Except.error DestroyBlockError.ChunkNotLoaded, [])
  | c :: rest =>
    if c.chunk_number = cn then
      match c.blocks row x with
      | some b =>
          (Except.ok b,
            { blocks := updateGrid c.blocks row x none, chunk_number := c.chunk_number } :: rest)
      | none => (Except.error DestroyBlockError.BlockDoesntExist, c :: rest)
    else
      let r := destroyInChunks row x cn rest
      (r.1, c :: r.2)

/-- `server::destroy_block` from `world.rs`: destroy the block at global
position `(x, y)`. Returns the `Result` together with the updated terrain. -/
def destroy_block (x y : Nat) (t : Terrain) : Except DestroyBlockError Block × Terrain :=
  if CHUNK_WIDTH ≤ x then (Except.error DestroyBlockError.InvalidX, t)
  else
    let r := destroyInChunks (y % CHUNK_HEIGHT) x (y / CHUNK_HEIGHT) t.chunks
    (r.1, { chunks := r.2 })

/-- A default chunk used only as the default of `listGetD`. -/
def dfltChunk : Chunk := { blocks := emptyGrid, chunk_number := 0 }

theorem destroyInChunks_not_found (row x cn : Nat) :
    ∀ l : List Chunk, (∀ c ∈ l, c.chunk_number ≠ cn) →
      destroyInChunks row x cn l = (Except.error DestroyBlockError.ChunkNotLoaded, l) := by
  intro l
  induction l with
  | nil => intro _; rfl
  | cons c rest ih =>
    intro h
    have hc : c.chunk_number ≠ cn := h c (List.mem_cons_self _ _)
    have hrest := ih (fun c' hc' => h c' (List.mem_cons_of_mem _ hc'))
    simp [destroyInChunks, hc, hrest]

theorem destroyInChunks_found_none (row x cn : Nat) :
    ∀ (l : List Chunk) (i : Nat), i < l.length →
      (listGetD l i dfltChunk).chunk_number = cn →
      (∀ j, j < i → (listGetD l j dfltChunk).chunk_number ≠ cn) →
      (listGetD l i dfltChunk).blocks row x = none →
      destroyInChunks row x cn l = (Except.error DestroyBlockError.BlockDoesntExist, l) := by
  intro l
  induction l with
  | nil => intro i hi; simp at hi
  | cons c rest ih =>
    intro i hi hnum hfirst hcell
    cases i with
    | zero =>
      simp only [listGetD_cons_zero] at hnum hcell
      simp [destroyInChunks, hnum, hcell]
    | succ k =>
      have hc : c.chunk_number ≠ cn := by
        have := hfirst 0 (Nat.succ_pos k)
        simpa using this
      simp only [listGetD_cons_succ] at hnum hcell
      have hk : k < rest.length := by simpa using Nat.lt_of_succ_lt_succ hi
      have hfirst' : ∀ j, j < k → (listGetD rest j dfltChunk).chunk_number ≠ cn := by
        intro j hj
        have := hfirst (j + 1) (Nat.succ_lt_succ hj)
        simpa using this
      have hrest := ih k hk hnum hfirst' hcell
      simp [destroyInChunks, hc, hrest]

theorem destroyInChunks_found_some (row x cn : Nat) :
    ∀ (l : List Chunk) (i : Nat) (b : Block), i < l.length →
      (listGetD l i dfltChunk).chunk_number = cn →
      (∀ j, j < i → (listGetD l j dfltChunk).chunk_number ≠ cn) →
      (listGetD l i dfltChunk).blocks row x = some b →
      (destroyInChunks row x cn l).1 = Except.ok b ∧
      (destroyInChunks row x cn l).2.length = l.length ∧
      (∀ j, j ≠ i → listGetD (destroyInChunks row x cn l).2 j dfltChunk = listGetD l j dfltChunk) ∧
      listGetD (destroyInChunks row x cn l).2 i dfltChunk =
        { blocks := updateGrid (listGetD l i dfltChunk).blocks row x none,
          chunk_number := (listGetD l i dfltChunk).chunk_number } := by
  intro l
  induction l with
  | nil => intro i b hi; simp at hi
  | cons c rest ih =>
    intro i b hi hnum hfirst hcell
    cases i with
    | zero =>
      simp only [listGetD_cons_zero] at hnum hcell ⊢
      refine ⟨?_, ?_, ?_, ?_⟩
      · simp [destroyInChunks, hnum, hcell]
      · simp [destroyInChunks, hnum, hcell]
      · intro j hj
        cases j with
        | zero => exact absurd rfl hj
        | succ k => simp [destroyInChunks, hnum, hcell, listGetD_cons_succ]
      · simp [destroyInChunks, hnum, hcell, listGetD_cons_zero]
    | succ k =>
      have hc : c.chunk_number ≠ cn := by
        have := hfirst 0 (Nat.succ_pos k)
        simpa using this
      simp only [listGetD_cons_succ] at hnum hcell
      have hk : k < rest.length := by simpa using Nat.lt_of_succ_lt_succ hi
      have hfirst' : ∀ j, j < k → (listGetD rest j dfltChunk).chunk_number ≠ cn := by
        intro j hj
        have := hfirst (j + 1) (Nat.succ_lt_succ hj)
        simpa using this
      obtain ⟨h1, h2, h3, h4⟩ := ih k b hk hnum hfirst' hcell
      refine ⟨?_, ?_, ?_, ?_⟩
      · simp [destroyInChunks, hc, h1]
      · simp [destroyInChunks, hc, h2]
      · intro j hj
        cases j with
        | zero => simp [destroyInChunks, hc, listGetD_cons_zero]
        | succ m =>
          have hm : m ≠ k := by
            intro hmk; exact hj (by simp [hmk])
          simp [destroyInChunks, hc, listGetD_cons_succ, h3 m hm]
      · simp [destroyInChunks, hc, listGetD_cons_succ, h4]

theorem destroyInChunks_error_frame (row x cn : Nat) :
    ∀ (l : List Chunk) (e : DestroyBlockError),
      (destroyInChunks row x cn l).1 = Except.error e →
      (destroyInChunks row x cn l).2 = l := by
  intro l
  induction l with
  | nil => intro e _; rfl
  | cons c rest ih =>
    intro e he
    by_cases hc : c.chunk_number = cn
    · cases hcell : c.blocks row x with
      | some b => simp [destroyInChunks, hc, hcell] at he
      | none => simp [destroyInChunks, hc, hcell]
    · simp only [destroyInChunks, if_neg hc] at he ⊢
      exact congrArg (c :: ·) (ih e he)

theorem destroyInChunks_ok_shape (row x cn : Nat) :
    ∀ (l : List Chunk) (b : Block),
      (destroyInChunks row x cn l).1 = Except.ok b →
      ∃ i, i < l.length ∧
        (listGetD l i dfltChunk).chunk_number = cn ∧
        (∀ j, j < i → (listGetD l j dfltChunk).chunk_number ≠ cn) ∧
        (listGetD l i dfltChunk).blocks row x = some b := by
  intro l
  induction l with
  | nil => intro b hb; simp [destroyInChunks] at hb
  | cons c rest ih =>
    intro b hb
    by_cases hc : c.chunk_number = cn
    · cases hcell : c.blocks row x with
      | some b' =>
        refine ⟨0, by simp, by simpa using hc, ?_, ?_⟩
        · intro j hj; omega
        · simp only [destroyInChunks, if_pos hc, hcell] at hb
          have : b' = b := by
            have := hb
            simp at this
            exact this
          simp [listGetD_cons_zero, hcell, this]
      | none => simp [destroyInChunks, hc, hcell] at hb
    · simp only [destroyInChunks, if_neg hc] at hb
      obtain ⟨i, hi, hnum, hfirst, hcell⟩ := ih b hb
      refine ⟨i + 1, by simpa using Nat.succ_lt_succ hi, by simpa using hnum, ?_, by simpa using hcell⟩
      intro j hj
      cases j with
      | zero => simpa using hc
      | succ m => simpa using hfirst m (Nat.lt_of_succ_lt_succ hj)

theorem updateGrid_same (g : Grid) (r c : Nat) (v : Option Block) :
    updateGrid g r c v r c = v := by
  simp [updateGrid]

theorem destroy_block_fst_of_lt (x y : Nat) (t0 : Terrain) (h : ¬ CHUNK_WIDTH ≤ x) :
    (destroy_block x y t0).1 =
      (destroyInChunks (y % CHUNK_HEIGHT) x (y / CHUNK_HEIGHT) t0.chunks).1 := by
  simp [destroy_block, h]

theorem updateGrid_other (g : Grid) (r c : Nat) (v : Option Block) (r' c' : Nat)
    (h : ¬(r' = r ∧ c' = c)) : updateGrid g r c v r' c' = g r' c' := by
  simp [updateGrid, h]

/-- C1: `destroy_block(x, y)` computes `chunk_number = y / CHUNK_HEIGHT` and
`row = y % CHUNK_HEIGHT`; it returns `InvalidX` when `x ≥ CHUNK_WIDTH`,
`ChunkNotLoaded` when no chunk carries that chunk number, `BlockDoesntExist`
when the addressed cell (of the first chunk carrying the number) is empty, and
otherwise clears that cell and returns the stored block; after a successful
destruction, destroying the same position again yields `BlockDoesntExist`. -/
theorem C1_destroy_block_contract (x y : Nat) (t : Terrain) :
    (CHUNK_WIDTH ≤ x → destroy_block x y t = (Except.error DestroyBlockError.InvalidX, t)) ∧
    (x < CHUNK_WIDTH → (∀ c ∈ t.chunks, c.chunk_number ≠ y / CHUNK_HEIGHT) →
      destroy_block x y t = (Except.error DestroyBlockError.ChunkNotLoaded, t)) ∧
    (x < CHUNK_WIDTH →
      ∀ i, i < t.chunks.length →
        (listGetD t.chunks i dfltChunk).chunk_number = y / CHUNK_HEIGHT →
        (∀ j, j < i → (listGetD t.chunks j dfltChunk).chunk_number ≠ y / CHUNK_HEIGHT) →
        ((listGetD t.chunks i dfltChunk).blocks (y % CHUNK_HEIGHT) x = none →
          destroy_block x y t = (Except.error DestroyBlockError.BlockDoesntExist, t)) ∧
        (∀ b, (listGetD t.chunks i dfltChunk).blocks (y % CHUNK_HEIGHT) x = some b →
          (destroy_block x y t).1 = Except.ok b ∧
          (listGetD (destroy_block x y t).2.chunks i dfltChunk).blocks (y % CHUNK_HEIGHT) x = none ∧
          (destroy_block x y (destroy_block x y t).2).1 =
            Except.error DestroyBlockError.BlockDoesntExist)) := by
  have hxw : CHUNK_WIDTH ≤ x ∨ x < CHUNK_WIDTH := le_or_lt _ _
  refine ⟨?_, ?_, ?_⟩
  · intro hx
    simp [destroy_block, hx]
  · intro hx hnone
    have hlt : ¬ CHUNK_WIDTH ≤ x := not_le_of_lt hx
    have h := destroyInChunks_not_found (y % CHUNK_HEIGHT) x (y / CHUNK_HEIGHT) t.chunks hnone
    simp [destroy_block, hlt, h]
  · intro hx i hi hnum hfirst
    have hlt : ¬ CHUNK_WIDTH ≤ x := not_le_of_lt hx
    constructor
    · intro hcell
      have h := destroyInChunks_found_none (y % CHUNK_HEIGHT) x (y / CHUNK_HEIGHT) t.chunks i hi
        hnum hfirst hcell
      simp [destroy_block, hlt, h]
    · intro b hcell
      obtain ⟨h1, h2, h3, h4⟩ := destroyInChunks_found_some (y % CHUNK_HEIGHT) x
        (y / CHUNK_HEIGHT) t.chunks i b hi hnum hfirst hcell
      have hfst : (destroy_block x y t).1 = Except.ok b := by
        simp [destroy_block, hlt, h1]
      have hsnd : (destroy_block x y t).2.chunks =
          (destroyInChunks (y % CHUNK_HEIGHT) x (y / CHUNK_HEIGHT) t.chunks).2 := by
        simp [destroy_block, hlt]
      refine ⟨hfst, ?_, ?_⟩
      · rw [hsnd, h4]
        exact updateGrid_same _ _ _ _
      · -- the second destruction finds the same chunk first, now with an empty cell
        have hlen' : (destroy_block x y t).2.chunks.length = t.chunks.length := by
          rw [hsnd]; exact h2
        have hnum' : (listGetD (destroy_block x y t).2.chunks i dfltChunk).chunk_number =
            y / CHUNK_HEIGHT := by
          rw [hsnd, h4]; exact hnum
        have hfirst' : ∀ j, j < i →
            (listGetD (destroy_block x y t).2.chunks j dfltChunk).chunk_number ≠
              y / CHUNK_HEIGHT := by
          intro j hj
          rw [hsnd, h3 j (Nat.ne_of_lt hj)]
          exact hfirst j hj
        have hcell' : (listGetD (destroy_block x y t).2.chunks i dfltChunk).blocks
            (y % CHUNK_HEIGHT) x = none := by
          rw [hsnd, h4]; exact updateGrid_same _ _ _ _
        have h := destroyInChunks_found_none (y % CHUNK_HEIGHT) x (y / CHUNK_HEIGHT)
          (destroy_block x y t).2.chunks i (by rw [hlen']; exact hi) hnum' hfirst' hcell'
        rw [destroy_block_fst_of_lt x y _ hlt, h]

/-- Concrete grid used by closed witnesses: a single limestone block at (0, 0). -/
def witnessGrid : Grid :=
  fun r c => if r = 0 ∧ c = 0 then some { block_type := BlockType.Limestone, entity := none } else none

/-- Concrete terrain used by closed witnesses: one chunk numbered 0. -/
def witnessTerrain : Terrain := { chunks := [{ blocks := witnessGrid, chunk_number := 0 }] }

theorem C1_destroy_block_contract_witness :
    ((0:Nat) < CHUNK_WIDTH) ∧
    (destroy_block 0 0 witnessTerrain).1 =
      Except.ok { block_type := BlockType.Limestone, entity := none } ∧
    (destroy_block 0 0 (destroy_block 0 0 witnessTerrain).2).1 =
      Except.error DestroyBlockError.BlockDoesntExist := by
  have h := ((C1_destroy_block_contract 0 0 witnessTerrain).2.2 (by decide) 0 (by decide) rfl
    (fun j hj => absurd hj (Nat.not_lt_zero j))).2
    { block_type := BlockType.Limestone, entity := none } rfl
  exact ⟨by decide, h.1, h.2.2⟩

/-- C10: `destroy_block` is atomic and frame-preserving: on any error the
terrain is returned unchanged, and on success the only change is that the
single cell at (`y / CHUNK_HEIGHT`, `y % CHUNK_HEIGHT`, `x`) of the addressed
chunk becomes empty: all other chunks, all chunk numbers, the chunk count and
order, and every other cell of the modified chunk are unchanged. -/
theorem C10_destroy_block_frame (x y : Nat) (t : Terrain) :
    (∀ e, (destroy_block x y t).1 = Except.error e → (destroy_block x y t).2 = t) ∧
    (∀ b, (destroy_block x y t).1 = Except.ok b →
      (destroy_block x y t).2.chunks.length = t.chunks.length ∧
      ∃ i, i < t.chunks.length ∧
        (listGetD t.chunks i dfltChunk).chunk_number = y / CHUNK_HEIGHT ∧
        (∀ j, j ≠ i →
          listGetD (destroy_block x y t).2.chunks j dfltChunk = listGetD t.chunks j dfltChunk) ∧
        (listGetD (destroy_block x y t).2.chunks i dfltChunk).chunk_number =
          (listGetD t.chunks i dfltChunk).chunk_number ∧
        (∀ r c, ¬(r = y % CHUNK_HEIGHT ∧ c = x) →
          (listGetD (destroy_block x y t).2.chunks i dfltChunk).blocks r c =
            (listGetD t.chunks i dfltChunk).blocks r c) ∧
        (listGetD (destroy_block x y t).2.chunks i dfltChunk).blocks (y % CHUNK_HEIGHT) x =
          none) := by
  constructor
  · intro e he
    by_cases hx : CHUNK_WIDTH ≤ x
    · simp [destroy_block, hx]
    · simp only [destroy_block, if_neg hx] at he ⊢
      have := destroyInChunks_error_frame (y % CHUNK_HEIGHT) x (y / CHUNK_HEIGHT) t.chunks e he
      rw [this]
  · intro b hb
    by_cases hx : CHUNK_WIDTH ≤ x
    · simp [destroy_block, hx] at hb
    · have hb' : (destroyInChunks (y % CHUNK_HEIGHT) x (y / CHUNK_HEIGHT) t.chunks).1 =
          Except.ok b := by
        simpa [destroy_block, hx] using hb
      obtain ⟨i, hi, hnum, hfirst, hcell⟩ :=
        destroyInChunks_ok_shape (y % CHUNK_HEIGHT) x (y / CHUNK_HEIGHT) t.chunks b hb'
      obtain ⟨h1, h2, h3, h4⟩ := destroyInChunks_found_some (y % CHUNK_HEIGHT) x
        (y / CHUNK_HEIGHT) t.chunks i b hi hnum hfirst hcell
      have hsnd : (destroy_block x y t).2.chunks =
          (destroyInChunks (y % CHUNK_HEIGHT) x (y / CHUNK_HEIGHT) t.chunks).2 := by
        simp [destroy_block, hx]
      refine ⟨by rw [hsnd]; exact h2, i, hi, hnum, ?_, ?_, ?_, ?_⟩
      · intro j hj
        rw [hsnd]; exact h3 j hj
      · rw [hsnd, h4]
      · intro r c hrc
        rw [hsnd, h4]
        exact updateGrid_other _ _ _ _ _ _ hrc
      · rw [hsnd, h4]
        exact updateGrid_same _ _ _ _

theorem C10_destroy_block_frame_witness :
    (destroy_block 0 0 witnessTerrain).1 =
      Except.ok { block_type := BlockType.Limestone, entity := none } ∧
    (destroy_block 0 0 witnessTerrain).2.chunks.length = witnessTerrain.chunks.length ∧
    (destroy_block 5 9999 witnessTerrain).2 = witnessTerrain := by
  refine ⟨rfl, ?_, ?_⟩
  · exact ((C10_destroy_block_frame 0 0 witnessTerrain).2
      { block_type := BlockType.Limestone, entity := none } rfl).1
  · exact (C10_destroy_block_frame 5 9999 witnessTerrain).1
      DestroyBlockError.ChunkNotLoaded rfl

/-- The decorative tree-part block types, as the specification groups them
("special non-physical markers (cave void, decorative tree parts)"). -/
def BlockType.isTreePart : BlockType → Bool
  | BlockType.PalmTreeBlock => true
  | BlockType.Leaves => true
  | BlockType.Trunk => true
  | _ => false

/-- C9 counterexample: the claim says `is_real_block t = false` iff `t` is
`CaveVoid` or a tree part, but `Leaves` is a tree part with
`is_real_block = true`. -/
theorem C9_is_real_block_counterexample :
    ¬ (BlockType.is_real_block BlockType.Leaves = false ↔
        (BlockType.Leaves = BlockType.CaveVoid ∨
          BlockType.isTreePart BlockType.Leaves = true)) := by
  decide

/-- C9 (amended): `is_real_block` is `false` exactly for the `CaveVoid` marker
and the decorative `PalmTreeBlock`; every other type, including the tree parts
`Trunk` and `Leaves`, is a real block. -/
theorem C9_is_real_block_amended (t : BlockType) :
    t.is_real_block = false ↔ (t = BlockType.CaveVoid ∨ t = BlockType.PalmTreeBlock) := by
  cases t <;> decide

/-- Seed derivation (`generate_seed` in `procedural_functions.rs`): the base
seed and each additional datum are fed, in order, through a hash accumulator
finalized to one 64-bit value. The std `DefaultHasher` is external library
code; its mixing is modelled by a fixed 64-bit affine fold, keeping the
source's order-sensitive accumulation structure. -/
def generate_seed (base_seed : Nat) (additional_data : List Nat) : Nat :=
  additional_data.foldl
    (fun acc d => (acc * 6364136223846793005 + d + 1442695040888963407) % 2 ^ 64)
    ((base_seed * 6364136223846793005 + 1442695040888963407) % 2 ^ 64)

/-- `StdRng::seed_from_u64` (external `rand` crate): the generator is modelled
as a seeded stream of raw draws; draw `n` is the `n`-th value consumed. -/
def stdRng (seed : Nat) : Nat → Nat := fun n => generate_seed seed [n]

/-- `Rng::gen_range(lo..hi)` for unsigned integers (external `rand` crate),
modelled by its contract: a value in `[lo, hi)`, taken from draw `k`. -/
def genRangeNat (r : Nat → Nat) (k lo hi : Nat) : Nat := lo + r k % (hi - lo)

/-- `Rng::gen_range(lo..hi)` for floats (external `rand` crate), idealized
over `ℚ` and modelled by its contract: `lo + (hi - lo) · u` with `u ∈ [0, 1)`
taken from draw `k`. -/
def genRangeRat (r : Nat → Nat) (k : Nat) (lo hi : ℚ) : ℚ :=
  lo + (hi - lo) * (((r k % 1000000 : Nat) : ℚ) / 1000000)

/-- `Rng::gen_bool(0.5)` (external `rand` crate): a coin from draw `k`. -/
def genBool (r : Nat → Nat) (k : Nat) : Bool := r k % 2 == 0

theorem genRangeNat_le (r : Nat → Nat) (k lo hi : Nat) : lo ≤ genRangeNat r k lo hi :=
  Nat.le_add_right _ _

theorem genRangeNat_lt (r : Nat → Nat) (k lo hi : Nat) (h : lo < hi) :
    genRangeNat r k lo hi < hi := by
  have := Nat.mod_lt (r k) (y := hi - lo) (by omega)
  unfold genRangeNat
  omega

/-- `generate_random_values` from `procedural_functions.rs`: `amount` seeded
draws in `[low, high)` (values are `i32` in the source, hence `ℤ` here). -/
def generate_random_values (seed : Nat) (amount low high : Nat) : List ℤ :=
  (List.range amount).map (fun k => ((genRangeNat (stdRng seed) k low high : Nat) : ℤ))

/-- `generate_random_vein_count` from `procedural_functions.rs`: a binomial
draw with `CHUNK_WIDTH * CHUNK_HEIGHT` trials (external `rand_distr` crate),
modelled by its support contract: a value in `[0, trials]`. -/
def generate_random_vein_count (seed chunk_number : Nat) : Nat :=
  stdRng (generate_seed seed [chunk_number]) 0 % (CHUNK_WIDTH * CHUNK_HEIGHT + 1)

/-- `generate_random_vein` from `procedural_functions.rs`: random start
coordinate inside the chunk, end x offset by `[10, 32)` with a random sign,
end y offset strictly downward by `[5, 16)`, squared thickness in `[1, 3)`. -/
def generate_random_vein (seed chunk_number vein_number : Nat) : Vein :=
  let r := stdRng (generate_seed seed [chunk_number, vein_number])
  let start_x := genRangeNat r 0 0 CHUNK_WIDTH
  let start_y := genRangeNat r 1 0 CHUNK_HEIGHT
  let end_x : ℤ := (start_x : ℤ) + (genRangeNat r 2 10 32 : ℤ) * (if genBool r 3 then 1 else -1)
  let end_y : ℤ := (start_y : ℤ) + (genRangeNat r 4 5 16 : ℤ)
  let thickness_sq : ℚ := genRangeRat r 5 1 3
  { block_type := BlockType.Coal, chunk_number := chunk_number,
    start_x := start_x, start_y := start_y, end_x := end_x, end_y := end_y,
    thickness_sq := thickness_sq }

/-- C6: for every seed, chunk number and vein index, the generated vein starts
inside the chunk bounds, its end x is offset from the start by a magnitude in
`[10, 32)` of either sign, its end y is offset strictly downward by a
magnitude in `[5, 16)` (so `end_y > start_y` always), and its squared
thickness lies in `[1, 3)`. -/
theorem C6_generate_random_vein_bounds (seed chunk_number vein_number : Nat) :
    (generate_random_vein seed chunk_number vein_number).start_x < CHUNK_WIDTH ∧
    (generate_random_vein seed chunk_number vein_number).start_y < CHUNK_HEIGHT ∧
    (∃ m : Nat, 10 ≤ m ∧ m < 32 ∧
      ((generate_random_vein seed chunk_number vein_number).end_x =
          ((generate_random_vein seed chunk_number vein_number).start_x : ℤ) + m ∨
        (generate_random_vein seed chunk_number vein_number).end_x =
          ((generate_random_vein seed chunk_number vein_number).start_x : ℤ) - m)) ∧
    (∃ m : Nat, 5 ≤ m ∧ m < 16 ∧
      (generate_random_vein seed chunk_number vein_number).end_y =
        ((generate_random_vein seed chunk_number vein_number).start_y : ℤ) + m) ∧
    ((generate_random_vein seed chunk_number vein_number).start_y : ℤ) <
      (generate_random_vein seed chunk_number vein_number).end_y ∧
    1 ≤ (generate_random_vein seed chunk_number vein_number).thickness_sq ∧
    (generate_random_vein seed chunk_number vein_number).thickness_sq < 3 := by
  set r := stdRng (generate_seed seed [chunk_number, vein_number]) with hr
  have hsx : (generate_random_vein seed chunk_number vein_number).start_x =
      genRangeNat r 0 0 CHUNK_WIDTH := rfl
  have hsy : (generate_random_vein seed chunk_number vein_number).start_y =
      genRangeNat r 1 0 CHUNK_HEIGHT := rfl
  have hex : (generate_random_vein seed chunk_number vein_number).end_x =
      (genRangeNat r 0 0 CHUNK_WIDTH : ℤ) +
        (genRangeNat r 2 10 32 : ℤ) * (if genBool r 3 then 1 else -1) := rfl
  have hey : (generate_random_vein seed chunk_number vein_number).end_y =
      (genRangeNat r 1 0 CHUNK_HEIGHT : ℤ) + (genRangeNat r 4 5 16 : ℤ) := rfl
  have htk : (generate_random_vein seed chunk_number vein_number).thickness_sq =
      genRangeRat r 5 1 3 := rfl
  refine ⟨?_, ?_, ?_, ?_, ?_, ?_, ?_⟩
  · rw [hsx]; exact genRangeNat_lt r 0 0 CHUNK_WIDTH (by decide)
  · rw [hsy]; exact genRangeNat_lt r 1 0 CHUNK_HEIGHT (by decide)
  · refine ⟨genRangeNat r 2 10 32, genRangeNat_le r 2 10 32,
      genRangeNat_lt r 2 10 32 (by decide), ?_⟩
    rw [hex, hsx]
    cases hb : genBool r 3
    · right
      simp only [hb, Bool.false_eq_true, if_false]
      ring
    · left
      simp only [hb, if_true]
      ring
  · refine ⟨genRangeNat r 4 5 16, genRangeNat_le r 4 5 16,
      genRangeNat_lt r 4 5 16 (by decide), ?_⟩
    rw [hey, hsy]
  · rw [hey, hsy]
    have h5 : 5 ≤ genRangeNat r 4 5 16 := genRangeNat_le r 4 5 16
    omega
  · rw [htk]
    unfold genRangeRat
    have h0 : (0 : ℚ) ≤ ((r 5 % 1000000 : Nat) : ℚ) / 1000000 :=
      div_nonneg (Nat.cast_nonneg _) (by norm_num)
    linarith
  · rw [htk]
    unfold genRangeRat
    have h1 : ((r 5 % 1000000 : Nat) : ℚ) / 1000000 < 1 := by
      rw [div_lt_one (by norm_num)]
      have := Nat.mod_lt (r 5) (y := 1000000) (by norm_num)
      exact_mod_cast this
    linarith

/-- `dist_sq` from `procedural_functions.rs` (`powf(2.0)` idealized as exact
squaring over `ℚ`). -/
def dist_sq (x1 y1 x2 y2 : ℚ) : ℚ := (x1 - x2) ^ 2 + (y1 - y2) ^ 2

/-- The raw (unclamped) projection parameter computed inside `dist_to_vein`. -/
def veinProj (v : Vein) (x y : ℚ) : ℚ :=
  ((x - (v.start_x : ℚ)) * ((v.end_x : ℚ) - (v.start_x : ℚ)) +
      (y - (v.start_y : ℚ)) * ((v.end_y : ℚ) - (v.start_y : ℚ))) /
    dist_sq (v.start_x : ℚ) (v.start_y : ℚ) (v.end_x : ℚ) (v.end_y : ℚ)

/-- Squared distance from `(x, y)` to the point of the vein's supporting line
at parameter `s` (`s = 0` is the segment's start, `s = 1` its end). -/
def distAtParam (v : Vein) (x y s : ℚ) : ℚ :=
  dist_sq x y ((v.start_x : ℚ) + s * ((v.end_x : ℚ) - (v.start_x : ℚ)))
    ((v.start_y : ℚ) + s * ((v.end_y : ℚ) - (v.start_y : ℚ)))

/-- `dist_to_vein` from `procedural_functions.rs`: squared distance from a
point to the vein's segment via the projection clamped to `[0, 1]`. -/
def dist_to_vein (v : Vein) (x y : ℚ) : ℚ :=
  let vx1 : ℚ := (v.start_x : ℚ)
  let vx2 : ℚ := (v.end_x : ℚ)
  let vy1 : ℚ := (v.start_y : ℚ)
  let vy2 : ℚ := (v.end_y : ℚ)
  let len_sq := dist_sq vx1 vy1 vx2 vy2
  if len_sq = 0 then dist_sq x y vx1 vy1
  else
    let proj := ((x - vx1) * (vx2 - vx1) + (y - vy1) * (vy2 - vy1)) / len_sq
    let proj2 := max (min proj 1) 0
    dist_sq x y (vx1 + proj2 * (vx2 - vx1)) (vy1 + proj2 * (vy2 - vy1))

theorem dist_sq_nonneg (x1 y1 x2 y2 : ℚ) : 0 ≤ dist_sq x1 y1 x2 y2 := by
  unfold dist_sq; positivity

theorem dist_sq_self (a b : ℚ) : dist_sq a b a b = 0 := by
  simp [dist_sq]

theorem dist_sq_eq_zero_iff (x1 y1 x2 y2 : ℚ) :
    dist_sq x1 y1 x2 y2 = 0 ↔ x1 = x2 ∧ y1 = y2 := by
  unfold dist_sq
  constructor
  · intro h
    have h1 : (x1 - x2) ^ 2 = 0 := by nlinarith [sq_nonneg (x1 - x2), sq_nonneg (y1 - y2)]
    have h2 : (y1 - y2) ^ 2 = 0 := by nlinarith [sq_nonneg (x1 - x2), sq_nonneg (y1 - y2)]
    constructor
    · have := pow_eq_zero_iff (n := 2) (by norm_num) |>.mp h1
      linarith [this]
    · have := pow_eq_zero_iff (n := 2) (by norm_num) |>.mp h2
      linarith [this]
  · rintro ⟨rfl, rfl⟩
    simp

theorem dist_to_vein_of_len_zero (v : Vein) (x y : ℚ)
    (h : dist_sq (v.start_x : ℚ) (v.start_y : ℚ) (v.end_x : ℚ) (v.end_y : ℚ) = 0) :
    dist_to_vein v x y = dist_sq x y (v.start_x : ℚ) (v.start_y : ℚ) := by
  simp only [dist_to_vein]
  rw [if_pos h]

theorem dist_to_vein_of_len_ne_zero (v : Vein) (x y : ℚ)
    (h : dist_sq (v.start_x : ℚ) (v.start_y : ℚ) (v.end_x : ℚ) (v.end_y : ℚ) ≠ 0) :
    dist_to_vein v x y = distAtParam v x y (max (min (veinProj v x y) 1) 0) := by
  simp only [dist_to_vein, distAtParam, veinProj]
  rw [if_neg h]

theorem distAtParam_key (v : Vein) (x y : ℚ)
    (hL : dist_sq (v.start_x : ℚ) (v.start_y : ℚ) (v.end_x : ℚ) (v.end_y : ℚ) ≠ 0) (s : ℚ) :
    distAtParam v x y s = distAtParam v x y (veinProj v x y) +
      dist_sq (v.start_x : ℚ) (v.start_y : ℚ) (v.end_x : ℚ) (v.end_y : ℚ) *
        (s - veinProj v x y) ^ 2 := by
  have hL' : ((v.start_x : ℚ) - (v.end_x : ℚ)) ^ 2 + ((v.start_y : ℚ) - (v.end_y : ℚ)) ^ 2 ≠ 0 := by
    simpa [dist_sq] using hL
  simp only [distAtParam, veinProj, dist_sq]
  field_simp
  ring

/-- C5: `dist_to_vein` computes the squared point-to-segment distance with
projection clamped to `[0, 1]`: it degenerates to point distance for
zero-length segments, vanishes at both segment endpoints, is the minimum of
the squared distance over all segment parameters `s ∈ [0, 1]` and is attained
at one of them, and for points whose raw projection lies beyond the segment's
end it is at least the squared distance to the foot of the perpendicular on
the supporting line (the clamped projection never extrapolates). -/
theorem C5_dist_to_vein_spec (v : Vein) (x y : ℚ) :
    (dist_sq (v.start_x : ℚ) (v.start_y : ℚ) (v.end_x : ℚ) (v.end_y : ℚ) = 0 →
      dist_to_vein v x y = dist_sq x y (v.start_x : ℚ) (v.start_y : ℚ)) ∧
    dist_to_vein v (v.start_x : ℚ) (v.start_y : ℚ) = 0 ∧
    dist_to_vein v (v.end_x : ℚ) (v.end_y : ℚ) = 0 ∧
    (∀ s : ℚ, 0 ≤ s → s ≤ 1 → dist_to_vein v x y ≤ distAtParam v x y s) ∧
    (∃ s : ℚ, 0 ≤ s ∧ s ≤ 1 ∧ dist_to_vein v x y = distAtParam v x y s) ∧
    (dist_sq (v.start_x : ℚ) (v.start_y : ℚ) (v.end_x : ℚ) (v.end_y : ℚ) ≠ 0 →
      1 < veinProj v x y →
      distAtParam v x y (veinProj v x y) ≤ dist_to_vein v x y) := by
  refine ⟨dist_to_vein_of_len_zero v x y, ?_, ?_, ?_, ?_, ?_⟩
  · -- the start endpoint is at distance 0
    by_cases hL : dist_sq (v.start_x : ℚ) (v.start_y : ℚ) (v.end_x : ℚ) (v.end_y : ℚ) = 0
    · rw [dist_to_vein_of_len_zero v _ _ hL, dist_sq_self]
    · rw [dist_to_vein_of_len_ne_zero v _ _ hL]
      have hp : veinProj v (v.start_x : ℚ) (v.start_y : ℚ) = 0 := by
        unfold veinProj
        simp
      rw [hp]
      simp [distAtParam, dist_sq_self]
  · -- the end endpoint is at distance 0
    by_cases hL : dist_sq (v.start_x : ℚ) (v.start_y : ℚ) (v.end_x : ℚ) (v.end_y : ℚ) = 0
    · rw [dist_to_vein_of_len_zero v _ _ hL]
      obtain ⟨hx, hy⟩ := (dist_sq_eq_zero_iff _ _ _ _).mp hL
      rw [← hx, ← hy, dist_sq_self]
    · rw [dist_to_vein_of_len_ne_zero v _ _ hL]
      have hp : veinProj v (v.end_x : ℚ) (v.end_y : ℚ) = 1 := by
        unfold veinProj
        rw [show ((v.end_x : ℚ) - (v.start_x : ℚ)) * ((v.end_x : ℚ) - (v.start_x : ℚ)) +
            ((v.end_y : ℚ) - (v.start_y : ℚ)) * ((v.end_y : ℚ) - (v.start_y : ℚ)) =
            dist_sq (v.start_x : ℚ) (v.start_y : ℚ) (v.end_x : ℚ) (v.end_y : ℚ) by
          unfold dist_sq; ring]
        exact div_self hL
      rw [hp]
      have : distAtParam v (v.end_x : ℚ) (v.end_y : ℚ) (max (min 1 1) 0) =
          distAtParam v (v.end_x : ℚ) (v.end_y : ℚ) 1 := by norm_num
      rw [this]
      unfold distAtParam
      rw [show (v.start_x : ℚ) + 1 * ((v.end_x : ℚ) - (v.start_x : ℚ)) = (v.end_x : ℚ) by ring,
        show (v.start_y : ℚ) + 1 * ((v.end_y : ℚ) - (v.start_y : ℚ)) = (v.end_y : ℚ) by ring,
        dist_sq_self]
  · -- minimality over the segment
    intro s hs0 hs1
    by_cases hL : dist_sq (v.start_x : ℚ) (v.start_y : ℚ) (v.end_x : ℚ) (v.end_y : ℚ) = 0
    · rw [dist_to_vein_of_len_zero v x y hL]
      obtain ⟨hx, hy⟩ := (dist_sq_eq_zero_iff _ _ _ _).mp hL
      unfold distAtParam
      rw [← hx, ← hy]
      simp
    · rw [dist_to_vein_of_len_ne_zero v x y hL]
      rw [distAtParam_key v x y hL s, distAtParam_key v x y hL (max (min (veinProj v x y) 1) 0)]
      have hLpos : 0 ≤ dist_sq (v.start_x : ℚ) (v.start_y : ℚ) (v.end_x : ℚ) (v.end_y : ℚ) :=
        dist_sq_nonneg _ _ _ _
      have hsq : (max (min (veinProj v x y) 1) 0 - veinProj v x y) ^ 2 ≤
          (s - veinProj v x y) ^ 2 := by
        rcases le_or_lt (veinProj v x y) 0 with hp | hp
        · rw [min_eq_left (le_trans hp zero_le_one), max_eq_right hp]
          nlinarith
        · rcases le_or_lt 1 (veinProj v x y) with hp1 | hp1
          · rw [min_eq_right hp1, max_eq_left zero_le_one]
            nlinarith
          · rw [min_eq_left hp1.le, max_eq_left hp.le]
            nlinarith [sq_nonneg (s - veinProj v x y)]
      nlinarith [mul_le_mul_of_nonneg_left hsq hLpos]
  · -- the minimum is attained at a clamped parameter
    by_cases hL : dist_sq (v.start_x : ℚ) (v.start_y : ℚ) (v.end_x : ℚ) (v.end_y : ℚ) = 0
    · refine ⟨0, le_refl 0, zero_le_one, ?_⟩
      rw [dist_to_vein_of_len_zero v x y hL]
      unfold distAtParam
      simp
    · refine ⟨max (min (veinProj v x y) 1) 0, le_max_right _ _,
        max_le (le_trans (min_le_right _ _) (le_refl 1)) zero_le_one, ?_⟩
      exact dist_to_vein_of_len_ne_zero v x y hL
  · -- no extrapolation beyond the end
    intro hL hp
    rw [dist_to_vein_of_len_ne_zero v x y hL]
    have hu : max (min (veinProj v x y) 1) 0 = 1 := by
      rw [min_eq_right hp.le, max_eq_left zero_le_one]
    rw [hu, distAtParam_key v x y hL 1]
    have hLpos : 0 ≤ dist_sq (v.start_x : ℚ) (v.start_y : ℚ) (v.end_x : ℚ) (v.end_y : ℚ) :=
      dist_sq_nonneg _ _ _ _
    nlinarith [sq_nonneg (1 - veinProj v x y)]

/-- Concrete vein used by the C5 witness: the segment from (0, 0) to (10, 0). -/
def veinW : Vein :=
  { block_type := BlockType.Coal, chunk_number := 0, start_x := 0, start_y := 0,
    end_x := 10, end_y := 0, thickness_sq := 1 }

theorem C5_dist_to_vein_spec_witness :
    dist_sq (veinW.start_x : ℚ) (veinW.start_y : ℚ) (veinW.end_x : ℚ) (veinW.end_y : ℚ) ≠ 0 ∧
    1 < veinProj veinW 11 2 ∧
    distAtParam veinW 11 2 (veinProj veinW 11 2) ≤ dist_to_vein veinW 11 2 ∧
    dist_to_vein veinW 11 2 ≤ distAtParam veinW 11 2 1 := by
  have hL : dist_sq (veinW.start_x : ℚ) (veinW.start_y : ℚ) (veinW.end_x : ℚ)
      (veinW.end_y : ℚ) ≠ 0 := by
    norm_num [dist_sq, veinW]
  have hp : 1 < veinProj veinW 11 2 := by
    norm_num [veinProj, dist_sq, veinW]
  exact ⟨hL, hp, (C5_dist_to_vein_spec veinW 11 2).2.2.2.2.2 hL hp,
    (C5_dist_to_vein_spec veinW 11 2).2.2.2.1 1 (by norm_num) (le_refl 1)⟩

theorem listGetD_eq_get {α : Type} :
    ∀ (l : List α) (i : Nat) (d : α) (h : i < l.length), listGetD l i d = l.get ⟨i, h⟩ := by
  intro l
  induction l with
  | nil => intro i d h; simp at h
  | cons a rest ih =>
    intro i d h
    cases i with
    | zero => rfl
    | succ k => exact ih k d (Nat.lt_of_succ_lt_succ h)

/-- `slice_pos_x` from `procedural_functions.rs` (f32 idealized as ℚ):
`x` is scaled by the integer step `CHUNK_WIDTH / r.len() + 1`, split into the
integer index (the `as u32` truncation of a nonnegative float, i.e. the floor)
and the fractional remainder, and the two neighbouring control points are
blended with the smoothstep weight. The source's unchecked `Vec` indexing is
modelled with a 0 default; the formula theorem assumes the in-bounds regime. -/
def slice_pos_x (x : Nat) (r : List ℤ) : ℚ :=
  let x_float : ℚ := (x : ℚ) / ((CHUNK_WIDTH / r.length + 1 : Nat) : ℚ)
  let x_int : Nat := (Int.floor x_float).toNat
  let diff : ℚ := x_float - (x_int : ℚ)
  let u : ℚ := diff * diff * (3 - 2 * diff)
  ((listGetD r x_int 0 : ℤ) : ℚ) * (1 - u) + ((listGetD r (x_int + 1) 0 : ℤ) : ℚ) * u

/-- C8: whenever the computed control-point index stays in bounds
(`i + 1 < r.len()`), `slice_pos_x` returns exactly
`r[i]·(1−u) + r[i+1]·u`, where `x' = x / (CHUNK_WIDTH / r.len() + 1)` is the
mixed integer/float scaling, `i` is the integer part of `x'`, `d` its
fractional remainder, and `u = d²·(3−2d)` the smoothstep weight. -/
theorem C8_slice_pos_x_formula (x : Nat) (r : List ℤ)
    (h : (Int.floor ((x : ℚ) / ((CHUNK_WIDTH / r.length + 1 : Nat) : ℚ))).toNat + 1 <
      r.length) :
    slice_pos_x x r =
      (let xf : ℚ := (x : ℚ) / ((CHUNK_WIDTH / r.length + 1 : Nat) : ℚ)
       let i : Nat := (Int.floor xf).toNat
       let d : ℚ := xf - (i : ℚ)
       let u : ℚ := d * d * (3 - 2 * d)
       ((r.get ⟨i, Nat.lt_of_succ_lt h⟩ : ℤ) : ℚ) * (1 - u) +
         ((r.get ⟨i + 1, h⟩ : ℤ) : ℚ) * u) := by
  simp only [slice_pos_x]
  rw [listGetD_eq_get r _ 0 (Nat.lt_of_succ_lt h), listGetD_eq_get r _ 0 h]

theorem C8_slice_pos_x_formula_witness :
    ((Int.floor ((0 : ℚ) / ((CHUNK_WIDTH / ([(2:ℤ), 5].length) + 1 : Nat) : ℚ))).toNat + 1 <
      [(2:ℤ), 5].length) ∧
    slice_pos_x 0 [(2:ℤ), 5] = 2 := by
  have h : ((Int.floor ((0 : ℚ) / ((CHUNK_WIDTH / ([(2:ℤ), 5].length) + 1 : Nat) : ℚ))).toNat +
      1 < [(2:ℤ), 5].length) := by
    norm_num [CHUNK_WIDTH]
  refine ⟨h, ?_⟩
  rw [C8_slice_pos_x_formula 0 [(2:ℤ), 5] h]
  norm_num [CHUNK_WIDTH]

/-- The compact discriminant tag of a `BlockType` (derived `bincode` encoding
of a fieldless enum; the concrete varint byte layout of the external `bincode`
crate is abstracted to one token per primitive). -/
def blockTypeTag : BlockType → Nat
  | BlockType.Sand => 0
  | BlockType.Limestone => 1
  | BlockType.Basalt => 2
  | BlockType.Granite => 3
  | BlockType.Diabase => 4
  | BlockType.Gabbro => 5
  | BlockType.Clay => 6
  | BlockType.Coal => 7
  | BlockType.Iron => 8
  | BlockType.Quartz => 9
  | BlockType.Labradorite => 10
  | BlockType.Peridot => 11
  | BlockType.CaveVoid => 12
  | BlockType.PalmTreeBlock => 13
  | BlockType.Leaves => 14
  | BlockType.Trunk => 15

/-- Decoding of a `BlockType` discriminant; out-of-range tags fail. -/
def blockTypeOfTag : Nat → Option BlockType
  | 0 => some BlockType.Sand
  | 1 => some BlockType.Limestone
  | 2 => some BlockType.Basalt
  | 3 => some BlockType.Granite
  | 4 => some BlockType.Diabase
  | 5 => some BlockType.Gabbro
  | 6 => some BlockType.Clay
  | 7 => some BlockType.Coal
  | 8 => some BlockType.Iron
  | 9 => some BlockType.Quartz
  | 10 => some BlockType.Labradorite
  | 11 => some BlockType.Peridot
  | 12 => some BlockType.CaveVoid
  | 13 => some BlockType.PalmTreeBlock
  | 14 => some BlockType.Leaves
  | 15 => some BlockType.Trunk
  | _ => none

theorem blockTypeOfTag_tag (bt : BlockType) : blockTypeOfTag (blockTypeTag bt) = some bt := by
  cases bt <;> rfl

/-- `impl Encode for Block` from `world.rs`: only the block type is encoded,
never the entity handle. -/
def encodeBlock (b : Block) : List Nat := [blockTypeTag b.block_type]

/-- `impl Decode for Block` from `world.rs`: decode the block type and attach
an absent entity handle. -/
def decodeBlock : List Nat → Option (Block × List Nat)
  | t :: rest => (blockTypeOfTag t).map (fun bt => ({ block_type := bt, entity := none }, rest))
  | [] => none

/-- Derived `Encode` for `Option<Block>`: tag 0 = `None`, 1 = `Some` + payload. -/
def encodeOptBlock : Option Block → List Nat
  | none => [0]
  | some b => 1 :: encodeBlock b

/-- Derived `Decode` for `Option<Block>`. -/
def decodeOptBlock : List Nat → Option (Option Block × List Nat)
  | 0 :: rest => some (none, rest)
  | 1 :: rest => (decodeBlock rest).map (fun p => (some p.1, p.2))
  | _ => none

/-- Sequence encoding of grid cells (derived array `Encode`: elements in
order, no length prefix for a fixed-size array). -/
def encodeCells : List (Option Block) → List Nat
  | [] => []
  | c :: cs => encodeOptBlock c ++ encodeCells cs

/-- Sequential decoding of a known number of grid cells. -/
def decodeCells : Nat → List Nat → Option (List (Option Block) × List Nat)
  | 0, rest => some ([], rest)
  | n + 1, rest =>
    (decodeOptBlock rest).bind (fun p =>
      (decodeCells n p.2).map (fun q => (p.1 :: q.1, q.2)))

/-- The row-major cell sequence of a grid, exactly as the derived `Encode` for
`[[Option<Block>; CHUNK_WIDTH]; CHUNK_HEIGHT]` iterates it: element `i` is row
`i / CHUNK_WIDTH`, column `i % CHUNK_WIDTH`. -/
def gridCells (g : Grid) : List (Option Block) :=
  (List.range (CHUNK_HEIGHT * CHUNK_WIDTH)).map (fun i => g (i / CHUNK_WIDTH) (i % CHUNK_WIDTH))

/-- Rebuild a grid from a row-major cell sequence. -/
def gridOfCells (l : List (Option Block)) : Grid :=
  fun y x => listGetD l (y * CHUNK_WIDTH + x) none

/-- Derived `Encode` for `Chunk`: the grid cells then the chunk number
(fields in declaration order). -/
def encodeChunk (c : Chunk) : List Nat := encodeCells (gridCells c.blocks) ++ [c.chunk_number]

/-- Derived `Decode` for `Chunk`. -/
def decodeChunk (toks : List Nat) : Option (Chunk × List Nat) :=
  (decodeCells (CHUNK_HEIGHT * CHUNK_WIDTH) toks).bind (fun p =>
    match p.2 with
    | n :: rest => some ({ blocks := gridOfCells p.1, chunk_number := n }, rest)
    | [] => none)

/-- Sequence encoding of the chunks of a `Vec<Chunk>`. -/
def encodeChunkList : List Chunk → List Nat
  | [] => []
  | c :: cs => encodeChunk c ++ encodeChunkList cs

/-- Sequential decoding of a known number of chunks. -/
def decodeChunkList : Nat → List Nat → Option (List Chunk × List Nat)
  | 0, rest => some ([], rest)
  | n + 1, rest =>
    (decodeChunk rest).bind (fun p =>
      (decodeChunkList n p.2).map (fun q => (p.1 :: q.1, q.2)))

/-- Derived `Encode` for `Terrain`: the `Vec` length then the chunks. -/
def encodeTerrain (t : Terrain) : List Nat := t.chunks.length :: encodeChunkList t.chunks

/-- Derived `Decode` for `Terrain`. -/
def decodeTerrain (toks : List Nat) : Option (Terrain × List Nat) :=
  match toks with
  | n :: rest => (decodeChunkList n rest).map (fun p => ({ chunks := p.1 }, p.2))
  | [] => none

/-- The `PartialEq for Block` of `world.rs`: type-only equality, the entity
handle is ignored. -/
def blockEqv (a b : Block) : Prop := a.block_type = b.block_type

/-- Lift of `blockEqv` to optional blocks (cell-wise equality contract). -/
def optBlockEqv : Option Block → Option Block → Prop
  | none, none => True
  | some a, some b => blockEqv a b
  | _, _ => False

/-- Chunk equality contract: equal chunk numbers and cell-wise type-only
equality over the in-bounds grid. -/
def chunkEqv (a b : Chunk) : Prop :=
  a.chunk_number = b.chunk_number ∧
  ∀ y x, y < CHUNK_HEIGHT → x < CHUNK_WIDTH → optBlockEqv (a.blocks y x) (b.blocks y x)

/-- Terrain equality contract: chunk-wise lift of `chunkEqv`. -/
def terrainEqv (a b : Terrain) : Prop :=
  a.chunks.length = b.chunks.length ∧
  ∀ i, i < a.chunks.length →
    chunkEqv (listGetD a.chunks i dfltChunk) (listGetD b.chunks i dfltChunk)

/-- Drop the presentation entity of a block (the effect of a decode). -/
def stripEntity (b : Block) : Block := { block_type := b.block_type, entity := none }

theorem decodeBlock_encodeBlock (b : Block) (rest : List Nat) :
    decodeBlock (encodeBlock b ++ rest) = some (stripEntity b, rest) := by
  simp [encodeBlock, decodeBlock, blockTypeOfTag_tag, stripEntity]

theorem decodeOptBlock_encodeOptBlock (c : Option Block) (rest : List Nat) :
    decodeOptBlock (encodeOptBlock c ++ rest) = some (c.map stripEntity, rest) := by
  cases c with
  | none => rfl
  | some b =>
    simp only [encodeOptBlock, List.cons_append, decodeOptBlock,
      decodeBlock_encodeBlock b rest, Option.map_some]
    rfl

theorem decodeCells_encodeCells (cs : List (Option Block)) (rest : List Nat) :
    decodeCells cs.length (encodeCells cs ++ rest) =
      some (cs.map (Option.map stripEntity), rest) := by
  induction cs with
  | nil => rfl
  | cons c cs ih =>
    simp only [List.length_cons, encodeCells, List.append_assoc, decodeCells,
      decodeOptBlock_encodeOptBlock c (encodeCells cs ++ rest)]
    simp [ih]

/-- The chunk produced by a decode round trip: same chunk number, every stored
block stripped of its entity handle. -/
def chunkStrip (c : Chunk) : Chunk :=
  { blocks := gridOfCells ((gridCells c.blocks).map (Option.map stripEntity)),
    chunk_number := c.chunk_number }

theorem decodeChunk_encodeChunk (c : Chunk) (rest : List Nat) :
    decodeChunk (encodeChunk c ++ rest) = some (chunkStrip c, rest) := by
  have hlen : (gridCells c.blocks).length = CHUNK_HEIGHT * CHUNK_WIDTH := by
    simp [gridCells]
  simp only [decodeChunk, encodeChunk, List.append_assoc]
  rw [← hlen, decodeCells_encodeCells]
  simp [chunkStrip]

theorem listGetD_map_lt {α β : Type} (f : α → β) :
    ∀ (l : List α) (i : Nat) (d : β) (d' : α), i < l.length →
      listGetD (l.map f) i d = f (listGetD l i d') := by
  intro l
  induction l with
  | nil => intro i d d' h; simp at h
  | cons a rest ih =>
    intro i d d' h
    cases i with
    | zero => rfl
    | succ k => exact ih k d d' (Nat.lt_of_succ_lt_succ h)

theorem gridOfCells_strip (g : Grid) (y x : Nat) (hy : y < CHUNK_HEIGHT) (hx : x < CHUNK_WIDTH) :
    gridOfCells ((gridCells g).map (Option.map stripEntity)) y x =
      Option.map stripEntity (g y x) := by
  have hy' : y < 64 := by simpa [CHUNK_HEIGHT] using hy
  have hx' : x < 128 := by simpa [CHUNK_WIDTH] using hx
  have hi : y * CHUNK_WIDTH + x < CHUNK_HEIGHT * CHUNK_WIDTH := by
    simp only [CHUNK_WIDTH, CHUNK_HEIGHT]
    omega
  have hilen : y * CHUNK_WIDTH + x < (gridCells g).length := by
    simpa [gridCells] using hi
  unfold gridOfCells
  rw [listGetD_map_lt (Option.map stripEntity) (gridCells g) _ none none hilen]
  have hget : listGetD (gridCells g) (y * CHUNK_WIDTH + x) none =
      g ((y * CHUNK_WIDTH + x) / CHUNK_WIDTH) ((y * CHUNK_WIDTH + x) % CHUNK_WIDTH) := by
    rw [listGetD_eq_get _ _ _ hilen]
    simp [gridCells]
  rw [hget]
  have hdiv : (y * CHUNK_WIDTH + x) / CHUNK_WIDTH = y := by
    simp only [CHUNK_WIDTH]
    omega
  have hmod : (y * CHUNK_WIDTH + x) % CHUNK_WIDTH = x := by
    simp only [CHUNK_WIDTH]
    omega
  rw [hdiv, hmod]

theorem optBlockEqv_strip (o : Option Block) : optBlockEqv (Option.map stripEntity o) o := by
  cases o with
  | none => trivial
  | some b => simp [optBlockEqv, blockEqv, stripEntity]

theorem chunkEqv_strip (c : Chunk) : chunkEqv (chunkStrip c) c := by
  constructor
  · simp only [chunkStrip]
  · intro y x hy hx
    simp only [chunkStrip]
    rw [gridOfCells_strip c.blocks y x hy hx]
    exact optBlockEqv_strip _

theorem decodeChunkList_encodeChunkList (l : List Chunk) (rest : List Nat) :
    decodeChunkList l.length (encodeChunkList l ++ rest) = some (l.map chunkStrip, rest) := by
  induction l with
  | nil => rfl
  | cons c cs ih =>
    simp only [List.length_cons, encodeChunkList, List.append_assoc, decodeChunkList,
      decodeChunk_encodeChunk c (encodeChunkList cs ++ rest)]
    simp [ih]

/-- C3: for every `Block`, `Chunk` and `Terrain`, decoding the encoding
succeeds consuming the whole input and yields a value equal to the original
under the type-only equality contract (`Block` equality compares
`block_type` only; `Chunk`/`Terrain` equality is lifted cell-wise and
chunk-wise), and a decoded `Block` always carries an absent entity handle
regardless of what was attached at encode time. -/
theorem C3_codec_round_trip (b : Block) (c : Chunk) (t : Terrain) :
    (decodeBlock (encodeBlock b) = some ({ block_type := b.block_type, entity := none }, []) ∧
      blockEqv { block_type := b.block_type, entity := none } b) ∧
    (∃ c', decodeChunk (encodeChunk c) = some (c', []) ∧ chunkEqv c' c) ∧
    (∃ t', decodeTerrain (encodeTerrain t) = some (t', []) ∧ terrainEqv t' t) := by
  refine ⟨⟨?_, rfl⟩, ⟨chunkStrip c, ?_, chunkEqv_strip c⟩,
    ⟨{ chunks := t.chunks.map chunkStrip }, ?_, ?_, ?_⟩⟩
  · have h := decodeBlock_encodeBlock b []
    simpa [stripEntity] using h
  · have h := decodeChunk_encodeChunk c []
    simpa using h
  · have h := decodeChunkList_encodeChunkList t.chunks []
    rw [List.append_nil] at h
    simp [decodeTerrain, encodeTerrain, h]
  · simp
  · intro i hi
    have hi' : i < t.chunks.length := by simpa using hi
    show chunkEqv (listGetD (t.chunks.map chunkStrip) i dfltChunk) (listGetD t.chunks i dfltChunk)
    rw [listGetD_map_lt chunkStrip t.chunks i dfltChunk dfltChunk hi']
    exact chunkEqv_strip _

/-- Modelled from the spec: `generate_chunk_biome_change` is imported by
`world.rs` but missing from the sources. §4.4 describes it as a seeded
probabilistic transition decision per chunk index, where absence means "no
change at this depth". Modelled as a seeded decision yielding a biome for
roughly one depth in four. -/
def generate_chunk_biome_change (seed chunk_number : Nat) : Option BiomeType :=
  let h := generate_seed seed [chunk_number, 91]
  if h % 4 = 0 then
    some (match h / 4 % 6 with
      | 0 => BiomeType.Sand
      | 1 => BiomeType.Sedimentary
      | 2 => BiomeType.Basalt
      | 3 => BiomeType.Felsic
      | 4 => BiomeType.Mafic
      | _ => BiomeType.Ultramafic)
  else none

/-- Modelled from the spec: `generate_perlin_noise` is imported by `world.rs`
but missing from the sources. §2 describes the cave noise field as "a 2D
scalar field over one chunk used to carve void space". Modelled as a seeded
scalar field with values in `[0, 1)`, indexed `[y][x]` as the call site reads
it. -/
def generate_perlin_noise (chunk_number seed : Nat) : Nat → Nat → ℚ :=
  fun y x => ((generate_seed seed [chunk_number, y, x] % 1000 : Nat) : ℚ) / 1000

/-- Modelled from the spec: `perlin_slice` is imported by `world.rs` but
missing from the sources. At its call site it supplies the per-column integer
second-octave offsets added to the surface hill line (amplitude `amp`).
Modelled as seeded offsets in `[-amp, amp]`. -/
def perlin_slice (seed octaves width amp : Nat) : List ℤ :=
  (List.range width).map
    (fun x => ((generate_seed seed [octaves, x] % (2 * amp + 1) : Nat) : ℤ) - (amp : ℤ))

/-- `Vein::new` from `world.rs`: a vein seeded with the hard-coded base seed. -/
def Vein.new (chunk_number vein_number : Nat) : Vein :=
  generate_random_vein BASE_SEED chunk_number vein_number

/-- The vein list built at the top of `Chunk::new`: veins counted for the
previous chunk and for the current chunk. Both loops construct
`Vein::new(depth, vein_number)` — the first loop uses the previous chunk's
count but still passes `depth`, exactly as the source does. -/
def chunkVeins (depth : Nat) : List Vein :=
  (if 0 < depth then
    (List.range (generate_random_vein_count BASE_SEED (depth - 1))).map
      (fun vein_number => Vein.new depth vein_number)
  else []) ++
  (List.range (generate_random_vein_count BASE_SEED depth)).map
    (fun vein_number => Vein.new depth vein_number)

/-- The backward biome walk of `Chunk::new`: the first transition decision
among depths `depth - 1, depth - 2, …, 0`, if any. -/
def prevBiomeSearch : Nat → Option BiomeType
  | 0 => none
  | d + 1 =>
    match generate_chunk_biome_change BASE_SEED d with
    | some b => some b
    | none => prevBiomeSearch d

/-- The `for height in (0..=y).rev()` scan of `Chunk::new`: the greatest row
index `≤ y` whose cell in column `col` is occupied, 0 when all are empty. -/
def findTreeBase (g : Grid) (col : Nat) : Nat → Nat
  | 0 => 0
  | h + 1 => if (g (h + 1) col).isSome then h + 1 else findTreeBase g col h

/-- `structure_fit` from `world.rs`: the 5-cell leaf footprint around column
`x`, rows `y`, `y + 1`, `y + 2` must be empty. -/
def structure_fit (g : Grid) (x y : Nat) : Bool :=
  if 4 < x ∧ x < CHUNK_WIDTH then
    (g y (x - 3)).isNone && (g y (x - 1)).isNone &&
      (g (y + 1) (x - 1)).isNone && (g (y + 1) (x - 3)).isNone &&
      (g (y + 2) (x - 1)).isNone && (g (y + 2) (x - 3)).isNone
  else false

/-- The tree-placement writes of `Chunk::new`: a trunk in column `x - 2` from
row `maxH + 1` down to `y`, then the 5-cell leaf cluster (the leaf write at
`(maxH + 1, x - 2)` overwrites the trunk's top, as in the source). -/
def placeTree (g : Grid) (x maxH y : Nat) : Grid :=
  let g1 := (List.range' (maxH + 1) (y - maxH)).foldl
    (fun gg h => updateGrid gg h (x - 2) (some { block_type := BlockType.Trunk, entity := none }))
    g
  let g2 := updateGrid g1 (maxH + 1) (x - 1)
    (some { block_type := BlockType.Leaves, entity := none })
  let g3 := updateGrid g2 (maxH + 1) (x - 2)
    (some { block_type := BlockType.Leaves, entity := none })
  let g4 := updateGrid g3 (maxH + 1) (x - 3)
    (some { block_type := BlockType.Leaves, entity := none })
  let g5 := updateGrid g4 (maxH + 2) (x - 1)
    (some { block_type := BlockType.Leaves, entity := none })
  updateGrid g5 (maxH + 2) (x - 3)
    (some { block_type := BlockType.Leaves, entity := none })

/-- The per-cell body of `Chunk::new`'s double loop: biome base block, vein
overrides, cave carving, and tree placement / empty cell. -/
def cellStep (depth : Nat) (veins : List Vein) (prev_biome biome_change : BiomeType)
    (biome_change_depths : List ℤ) (perlin : Nat → Nat → ℚ) (g : Grid) (x y : Nat) : Grid :=
  let biome_change_ypos := (round (slice_pos_x x biome_change_depths)).toNat - 1
  let bt0 := if biome_change_ypos ≤ y then biome_change.primary_block else prev_biome.primary_block
  let bt1 := veins.foldl
    (fun bt v =>
      if 0 < depth ∧ (v.chunk_number = depth - 1 ∨ v.chunk_number = depth) then
        let y_offset := if v.chunk_number < depth then CHUNK_HEIGHT else 0
        if dist_to_vein v (x : ℚ) ((y + y_offset : Nat) : ℚ) < v.thickness_sq / 2 then
          if biome_change_ypos ≤ y then biome_change.ore_block else prev_biome.ore_block
        else bt
      else bt)
    bt0
  let bt2 := if PERLIN_CAVE_THRESHOLD < perlin y x then BlockType.CaveVoid else bt1
  if bt2 ≠ BlockType.CaveVoid then
    updateGrid g y x (some { block_type := bt2, entity := none })
  else
    let primary := if biome_change_ypos ≤ y then biome_change.primary_block
      else prev_biome.primary_block
    if 4 < y ∧ y < CHUNK_HEIGHT - 1 ∧ 4 < x ∧ (g (y + 1) (x - 2)).isSome ∧
        (g (y + 1) (x - 2)).map Block.block_type = some primary then
      let max0 := findTreeBase g (x - 2) y
      let max1 := if 2 < y - max0 then
          (listGetD (generate_random_values (BASE_SEED + x) 2 max0 y) 0 0).toNat
        else max0
      if 2 < y - max1 ∧ structure_fit g x max1 then placeTree g x max1 y
      else updateGrid g y x none
    else updateGrid g y x none

/-- `Chunk::new` from `world.rs`: vein lists for the previous and current
chunk, backward biome resolution, the biome-boundary curve, the cave noise
field, then the per-cell double loop over the grid. -/
def Chunk.new (depth : Nat) : Chunk :=
  let veins := chunkVeins depth
  let prev_biome := (prevBiomeSearch depth).getD BiomeType.Sand
  let biome_change := (generate_chunk_biome_change BASE_SEED depth).getD prev_biome
  let avg :=
    (listGetD (generate_random_values (generate_seed BASE_SEED [depth, 432]) 1 3 10) 0 0).toNat
  let biome_change_depths :=
    generate_random_values (generate_seed BASE_SEED [depth, 234]) 64 (avg - 2) (avg + 2)
  let perlin := generate_perlin_noise depth BASE_SEED
  { blocks :=
      (List.range CHUNK_WIDTH).foldl
        (fun g x =>
          (List.range CHUNK_HEIGHT).foldl
            (fun g y => cellStep depth veins prev_biome biome_change biome_change_depths perlin g x y)
            g)
        emptyGrid,
    chunk_number := depth }

theorem chunkNew_number (n : Nat) : (Chunk.new n).chunk_number = n := by
  simp only [Chunk.new]

/-- The `highest_numbered_chunk_in_terrain` local of
`server::check_generate_new_chunks`: computed once from the terrain, before
any chunk is appended. -/
def terrainHighest (t : Terrain) : Nat :=
  if t.chunks.length = 0 then 0 else t.chunks.length - 1

/-- `server::check_generate_new_chunks` from `world.rs`: for every player
depth, and for each offset `0 ≤ off < GEN_CHUNKS_AHEAD`, append
`Chunk::new(depth + off)` whenever `depth + off` exceeds the highest chunk
number computed once at entry. -/
def check_generate_new_chunks (player_depths : List Nat) (t : Terrain) : Terrain :=
  let highest := terrainHighest t
  { chunks :=
      player_depths.foldl
        (fun acc d =>
          (List.range GEN_CHUNKS_AHEAD).foldl
            (fun acc2 off => if highest < d + off then acc2 ++ [Chunk.new (d + off)] else acc2)
            acc)
        t.chunks }

/-- The chunks one player's inner loop appends, in order. -/
def pushesFor (highest d : Nat) : List Chunk :=
  (List.range GEN_CHUNKS_AHEAD).filterMap
    (fun off => if highest < d + off then some (Chunk.new (d + off)) else none)

/-- Concatenation of the per-player appended chunk lists. -/
def flatPushes (highest : Nat) : List Nat → List Chunk
  | [] => []
  | d :: ds => pushesFor highest d ++ flatPushes highest ds

theorem inner_fold_pushes (highest d : Nat) :
    ∀ (l : List Nat) (acc : List Chunk),
      l.foldl (fun acc2 off => if highest < d + off then acc2 ++ [Chunk.new (d + off)] else acc2)
          acc =
        acc ++ l.filterMap (fun off => if highest < d + off then some (Chunk.new (d + off))
          else none) := by
  intro l
  induction l with
  | nil => intro acc; simp
  | cons o rest ih =>
    intro acc
    by_cases h : highest < d + o
    · simp [List.foldl_cons, h, ih, List.filterMap_cons]
    · simp [List.foldl_cons, h, ih, List.filterMap_cons]

theorem check_chunks_eq (player_depths : List Nat) (t : Terrain) :
    (check_generate_new_chunks player_depths t).chunks =
      t.chunks ++ flatPushes (terrainHighest t) player_depths := by
  simp only [check_generate_new_chunks]
  generalize t.chunks = acc
  induction player_depths generalizing acc with
  | nil => simp [flatPushes]
  | cons d ds ih =>
    simp only [List.foldl_cons, flatPushes]
    rw [inner_fold_pushes (terrainHighest t) d (List.range GEN_CHUNKS_AHEAD) acc, ih]
    rw [List.append_assoc]
    rfl

theorem mem_flatPushes (highest : Nat) :
    ∀ (l : List Nat) (d : Nat), d ∈ l → ∀ c ∈ pushesFor highest d, c ∈ flatPushes highest l := by
  intro l
  induction l with
  | nil => intro d hd; simp at hd
  | cons a rest ih =>
    intro d hd c hc
    rcases List.mem_cons.mp hd with h | h
    · subst h
      exact List.mem_append_left _ hc
    · exact List.mem_append_right _ (ih d h c hc)

theorem mem_pushesFor (highest d off : Nat) (hoff : off < GEN_CHUNKS_AHEAD)
    (h : highest < d + off) : Chunk.new (d + off) ∈ pushesFor highest d := by
  unfold pushesFor
  exact List.mem_filterMap.mpr ⟨off, List.mem_range.mpr hoff, by rw [if_pos h]⟩

theorem range_add_one (k : Nat) : List.range (k + 1) = List.range k ++ [k] := by
  simpa using List.range_succ (n := k)

theorem range_add_two (k : Nat) : List.range (k + 2) = List.range k ++ [k, k + 1] := by
  have h : k + 2 = (k + 1) + 1 := by omega
  rw [h, List.range_succ, range_add_one]
  simp

theorem range_add_three (k : Nat) : List.range (k + 3) = List.range k ++ [k, k + 1, k + 2] := by
  have h : k + 3 = (k + 2) + 1 := by omega
  rw [h, List.range_succ, range_add_two]
  simp

/-- C2 counterexample: starting from the well-formed one-chunk terrain
(numbers exactly `0..0`), one run with a single player at depth 2 appends
chunks 2, 3, 4 but never chunk 1 — the store has a gap, refuting "the chunk
numbers present are exactly 0..highest with no gaps"; and starting from the
empty terrain with a player at depth 0, chunk 0 (the player's own chunk) is
never generated, refuting "chunks d, d+1, d+2 are present" there. -/
theorem C2_check_generate_counterexample :
    ((Terrain.mk [{ blocks := emptyGrid, chunk_number := 0 }]).chunks.map
        (fun c => c.chunk_number) =
      List.range (Terrain.mk [{ blocks := emptyGrid, chunk_number := 0 }]).chunks.length) ∧
    (4 : Nat) ∈ ((check_generate_new_chunks [2]
        (Terrain.mk [{ blocks := emptyGrid, chunk_number := 0 }])).chunks.map
        (fun c => c.chunk_number)) ∧
    ¬ ((1 : Nat) ∈ ((check_generate_new_chunks [2]
        (Terrain.mk [{ blocks := emptyGrid, chunk_number := 0 }])).chunks.map
        (fun c => c.chunk_number))) ∧
    ¬ ((0 : Nat) ∈ ((check_generate_new_chunks [0] (Terrain.mk [])).chunks.map
        (fun c => c.chunk_number))) := by
  have hrange3 : List.range GEN_CHUNKS_AHEAD = [0, 1, 2] := by decide
  have e1 : (check_generate_new_chunks [2]
      (Terrain.mk [{ blocks := emptyGrid, chunk_number := 0 }])).chunks.map
      (fun c => c.chunk_number) = [0, 2, 3, 4] := by
    rw [check_chunks_eq]
    have hh : terrainHighest (Terrain.mk [{ blocks := emptyGrid, chunk_number := 0 }]) = 0 := rfl
    rw [hh]
    have h0 : (0 : Nat) < 2 := by omega
    have h1 : (0 : Nat) < 2 + 1 := by omega
    have h2 : (0 : Nat) < 2 + 2 := by omega
    simp [flatPushes, pushesFor, hrange3, List.filterMap_cons, h0, h1, h2, chunkNew_number]
  have e2 : (check_generate_new_chunks [0] (Terrain.mk [])).chunks.map
      (fun c => c.chunk_number) = [1, 2] := by
    rw [check_chunks_eq]
    have hh : terrainHighest (Terrain.mk []) = 0 := rfl
    rw [hh]
    have h0 : ¬ ((0 : Nat) < 0) := by omega
    have h1 : (0 : Nat) < 0 + 1 := by omega
    have h2 : (0 : Nat) < 0 + 2 := by omega
    simp [flatPushes, pushesFor, hrange3, List.filterMap_cons, h0, h1, h2, chunkNew_number]
  refine ⟨rfl, ?_, ?_, ?_⟩
  · rw [e1]; simp
  · rw [e1]; simp
  · rw [e2]; simp

/-- C2 (amended): for every nonempty terrain whose chunk numbers are exactly
`0..len-1` and every set of player depths, after one run of
`check_generate_new_chunks` every player depth `d` has chunks `d`, `d+1`,
`d+2` present; and when there is a single player whose depth satisfies
`d ≤ len`, the chunk numbers afterwards are exactly
`0..max(len-1, d+2)` with no gaps and no duplicates, appended in increasing
order. (For a player depth jumping more than one chunk past the end, the
missing intermediate numbers are never backfilled, and concurrent players at
equal depths append duplicates — see the counterexample.) -/
theorem C2_check_generate_amended (t : Terrain) (hne : 0 < t.chunks.length)
    (hwf : t.chunks.map (fun c => c.chunk_number) = List.range t.chunks.length)
    (player_depths : List Nat) :
    (∀ d ∈ player_depths, ∀ off, off < GEN_CHUNKS_AHEAD →
      (d + off) ∈ ((check_generate_new_chunks player_depths t).chunks.map
        (fun c => c.chunk_number))) ∧
    (∀ d : Nat, player_depths = [d] → d ≤ t.chunks.length →
      (check_generate_new_chunks player_depths t).chunks.map (fun c => c.chunk_number) =
        List.range (max t.chunks.length (d + 3))) := by
  have hlen0 : ¬ t.chunks.length = 0 := by omega
  have hh : terrainHighest t = t.chunks.length - 1 := by
    simp [terrainHighest, hlen0]
  have hrange3 : List.range GEN_CHUNKS_AHEAD = [0, 1, 2] := by decide
  constructor
  · intro d hd off hoff
    rw [check_chunks_eq, List.map_append]
    by_cases h : terrainHighest t < d + off
    · refine List.mem_append_right _ ?_
      exact List.mem_map.mpr ⟨Chunk.new (d + off),
        mem_flatPushes _ player_depths d hd _ (mem_pushesFor _ _ _ hoff h), chunkNew_number _⟩
    · refine List.mem_append_left _ ?_
      rw [hwf]
      rw [hh] at h
      exact List.mem_range.mpr (by omega)
  · intro d hdep hdlen
    subst hdep
    rw [check_chunks_eq, hh, List.map_append, hwf]
    have hflat : flatPushes (t.chunks.length - 1) [d] = pushesFor (t.chunks.length - 1) d ++ [] :=
      rfl
    rw [hflat, List.append_nil]
    rcases (by omega : d + 2 < t.chunks.length ∨ t.chunks.length = d ∨
        t.chunks.length = d + 1 ∨ t.chunks.length = d + 2) with hc | hc | hc | hc
    · have h0 : ¬ (t.chunks.length - 1 < d) := by omega
      have h1 : ¬ (t.chunks.length - 1 < d + 1) := by omega
      have h2 : ¬ (t.chunks.length - 1 < d + 2) := by omega
      have hp : pushesFor (t.chunks.length - 1) d = [] := by
        simp [pushesFor, hrange3, List.filterMap_cons, h0, h1, h2]
      rw [hp]
      rw [show max t.chunks.length (d + 3) = t.chunks.length by omega]
      simp
    · have h0 : t.chunks.length - 1 < d := by omega
      have h1 : t.chunks.length - 1 < d + 1 := by omega
      have h2 : t.chunks.length - 1 < d + 2 := by omega
      have hp : pushesFor (t.chunks.length - 1) d =
          [Chunk.new d, Chunk.new (d + 1), Chunk.new (d + 2)] := by
        simp [pushesFor, hrange3, List.filterMap_cons, h0, h1, h2]
      rw [hp]
      rw [show max t.chunks.length (d + 3) = d + 3 by omega, range_add_three, hc]
      simp [chunkNew_number]
    · have h0 : ¬ (t.chunks.length - 1 < d) := by omega
      have h1 : t.chunks.length - 1 < d + 1 := by omega
      have h2 : t.chunks.length - 1 < d + 2 := by omega
      have hp : pushesFor (t.chunks.length - 1) d =
          [Chunk.new (d + 1), Chunk.new (d + 2)] := by
        simp [pushesFor, hrange3, List.filterMap_cons, h0, h1, h2]
      rw [hp]
      rw [show max t.chunks.length (d + 3) = d + 3 by omega,
        show d + 3 = d + 1 + 2 by omega, range_add_two, hc]
      simp [chunkNew_number]
    · have h0 : ¬ (t.chunks.length - 1 < d) := by omega
      have h1 : ¬ (t.chunks.length - 1 < d + 1) := by omega
      have h2 : t.chunks.length - 1 < d + 2 := by omega
      have hp : pushesFor (t.chunks.length - 1) d = [Chunk.new (d + 2)] := by
        simp [pushesFor, hrange3, List.filterMap_cons, h0, h1, h2]
      rw [hp]
      rw [show max t.chunks.length (d + 3) = d + 3 by omega,
        show d + 3 = d + 2 + 1 by omega, range_add_one, hc]
      simp [chunkNew_number]

theorem C2_check_generate_amended_witness :
    (0 < (Terrain.mk [{ blocks := emptyGrid, chunk_number := 0 }]).chunks.length) ∧
    ((check_generate_new_chunks [1]
        (Terrain.mk [{ blocks := emptyGrid, chunk_number := 0 }])).chunks.map
        (fun c => c.chunk_number) = List.range (max 1 4)) := by
  have hne : 0 < (Terrain.mk [{ blocks := emptyGrid, chunk_number := 0 }]).chunks.length := by
    decide
  have hwf : (Terrain.mk [{ blocks := emptyGrid, chunk_number := 0 }]).chunks.map
      (fun c => c.chunk_number) =
      List.range (Terrain.mk [{ blocks := emptyGrid, chunk_number := 0 }]).chunks.length := rfl
  exact ⟨hne, (C2_check_generate_amended _ hne hwf [1]).2 1 rfl (by decide)⟩

/-- Invariant for C4: the cell never stores a cave-void block, and a cell
whose noise value exceeds the carving threshold stores nothing or only a tree
part written by a later column's tree placement. -/
def cellOk (perlin : Nat → Nat → ℚ) (y x : Nat) (v : Option Block) : Prop :=
  (∀ b, v = some b → b.block_type ≠ BlockType.CaveVoid) ∧
  (PERLIN_CAVE_THRESHOLD < perlin y x →
    v = none ∨ v.map Block.block_type = some BlockType.Trunk ∨
      v.map Block.block_type = some BlockType.Leaves)

/-- Pointwise lift of `cellOk` over the whole grid. -/
def gridOk (perlin : Nat → Nat → ℚ) (g : Grid) : Prop :=
  ∀ y x, cellOk perlin y x (g y x)

theorem cellOk_none (perlin : Nat → Nat → ℚ) (y x : Nat) : cellOk perlin y x none := by
  constructor
  · intro b hb; cases hb
  · intro _; left; rfl

theorem cellOk_trunk (perlin : Nat → Nat → ℚ) (y x : Nat) :
    cellOk perlin y x (some { block_type := BlockType.Trunk, entity := none }) := by
  constructor
  · intro b hb
    cases hb
    decide
  · intro _
    right; left; rfl

theorem cellOk_leaves (perlin : Nat → Nat → ℚ) (y x : Nat) :
    cellOk perlin y x (some { block_type := BlockType.Leaves, entity := none }) := by
  constructor
  · intro b hb
    cases hb
    decide
  · intro _
    right; right; rfl

theorem gridOk_update (perlin : Nat → Nat → ℚ) (g : Grid) (r c : Nat) (v : Option Block)
    (hg : gridOk perlin g) (hv : cellOk perlin r c v) : gridOk perlin (updateGrid g r c v) := by
  intro y x
  by_cases h : y = r ∧ x = c
  · have he : updateGrid g r c v y x = v := by
      unfold updateGrid
      rw [if_pos h]
    rw [he]
    obtain ⟨hy, hx⟩ := h
    subst hy; subst hx
    exact hv
  · rw [updateGrid_other g r c v y x h]
    exact hg y x

theorem gridOk_foldl {α : Type} (perlin : Nat → Nat → ℚ) (f : Grid → α → Grid)
    (hf : ∀ g a, gridOk perlin g → gridOk perlin (f g a)) :
    ∀ (l : List α) (g : Grid), gridOk perlin g → gridOk perlin (l.foldl f g) := by
  intro l
  induction l with
  | nil => intro g hg; exact hg
  | cons a rest ih => intro g hg; exact ih (f g a) (hf g a hg)

theorem placeTree_gridOk (perlin : Nat → Nat → ℚ) (g : Grid) (x maxH y : Nat)
    (hg : gridOk perlin g) : gridOk perlin (placeTree g x maxH y) := by
  unfold placeTree
  apply gridOk_update _ _ _ _ _ _ (cellOk_leaves perlin _ _)
  apply gridOk_update _ _ _ _ _ _ (cellOk_leaves perlin _ _)
  apply gridOk_update _ _ _ _ _ _ (cellOk_leaves perlin _ _)
  apply gridOk_update _ _ _ _ _ _ (cellOk_leaves perlin _ _)
  apply gridOk_update _ _ _ _ _ _ (cellOk_leaves perlin _ _)
  apply gridOk_foldl perlin _ ?_ _ g hg
  intro g' h hg'
  exact gridOk_update _ _ _ _ _ hg' (cellOk_trunk perlin _ _)

theorem cellBody_gridOk (perlin : Nat → Nat → ℚ) (g : Grid) (x y : Nat) (bt1 : BlockType)
    (PT Q : Prop) [Decidable PT] [Decidable Q] (M : Nat) (hg : gridOk perlin g) :
    gridOk perlin
      (if (if PERLIN_CAVE_THRESHOLD < perlin y x then BlockType.CaveVoid else bt1) ≠
          BlockType.CaveVoid then
        updateGrid g y x
          (some { block_type :=
                    (if PERLIN_CAVE_THRESHOLD < perlin y x then BlockType.CaveVoid else bt1),
                  entity := none })
      else if PT then (if Q then placeTree g x M y else updateGrid g y x none)
        else updateGrid g y x none) := by
  by_cases hper : PERLIN_CAVE_THRESHOLD < perlin y x
  · rw [if_pos hper]
    rw [if_neg (fun h : BlockType.CaveVoid ≠ BlockType.CaveVoid => h rfl)]
    split
    · split
      · exact placeTree_gridOk perlin g x M y hg
      · exact gridOk_update _ _ _ _ _ hg (cellOk_none _ _ _)
    · exact gridOk_update _ _ _ _ _ hg (cellOk_none _ _ _)
  · rw [if_neg hper]
    by_cases hne : bt1 = BlockType.CaveVoid
    · rw [if_neg (fun h : bt1 ≠ BlockType.CaveVoid => h hne)]
      split
      · split
        · exact placeTree_gridOk perlin g x M y hg
        · exact gridOk_update _ _ _ _ _ hg (cellOk_none _ _ _)
      · exact gridOk_update _ _ _ _ _ hg (cellOk_none _ _ _)
    · rw [if_pos (hne : bt1 ≠ BlockType.CaveVoid)]
      apply gridOk_update _ _ _ _ _ hg
      constructor
      · intro b hb
        cases hb
        exact hne
      · intro hp
        exact absurd hp hper

theorem cellStep_gridOk (depth : Nat) (veins : List Vein) (pb bc : BiomeType)
    (bcd : List ℤ) (perlin : Nat → Nat → ℚ) (g : Grid) (x y : Nat)
    (hg : gridOk perlin g) : gridOk perlin (cellStep depth veins pb bc bcd perlin g x y) := by
  simp only [cellStep]
  exact cellBody_gridOk perlin g x y _ _ _ _ hg

theorem chunkNew_gridOk (depth : Nat) :
    gridOk (generate_perlin_noise depth BASE_SEED) (Chunk.new depth).blocks := by
  simp only [Chunk.new]
  apply gridOk_foldl _ _ ?_ _ _ ?_
  · intro g x hg
    apply gridOk_foldl _ _ ?_ _ _ hg
    intro g' y hg'
    exact cellStep_gridOk _ _ _ _ _ _ g' x y hg'
  · intro y x
    exact cellOk_none _ _ _

/-- The 16 hill-height control points of `Chunk::new_surface`. -/
def surfaceHillVals : List ℤ := generate_random_values BASE_SEED 16 3 16

/-- The 32 sand-depth control points of `Chunk::new_surface`. -/
def surfaceSandVals : List ℤ := generate_random_values BASE_SEED 32 16 31

/-- The per-column decorative-tree draws of `Chunk::new_surface`. -/
def surfaceTreeVals : List ℤ := generate_random_values BASE_SEED CHUNK_WIDTH (0) (CHUNK_WIDTH / 8)

/-- The second-octave per-column offsets of `Chunk::new_surface`. -/
def surfaceOctave2 : List ℤ := perlin_slice (BASE_SEED + 25) 32 CHUNK_WIDTH 8

/-- The `hill_top` of column `x` in `Chunk::new_surface`
(`(slice.round() as i32 + octave2[x]) as usize - 1`, saturating casts). -/
def surfaceHillTop (x : Nat) : Nat :=
  (round (slice_pos_x x surfaceHillVals) + listGetD surfaceOctave2 x 0).toNat - 1

/-- The `sand_depth` of column `x` in `Chunk::new_surface`. -/
def surfaceSandDepth (x : Nat) : Nat :=
  (round (slice_pos_x x surfaceSandVals)).toNat - 1

/-- The vein list of `Chunk::new_surface` (chunk 0 only). -/
def surfaceVeins : List Vein :=
  (List.range (generate_random_vein_count BASE_SEED 0)).map
    (fun vein_number => Vein.new 0 vein_number)

/-- The block type `Chunk::new_surface` stores at `(x, y)` for rows at or
below the hill line: the sand/sedimentary primary by sand depth, overridden
to the corresponding ore inside a vein. -/
def surfaceCellType (x y : Nat) : BlockType :=
  surfaceVeins.foldl
    (fun bt v =>
      if v.chunk_number = 0 then
        if dist_to_vein v (x : ℚ) (y : ℚ) < v.thickness_sq / 2 then
          if y ≤ surfaceSandDepth x then BiomeType.Sand.ore_block
          else BiomeType.Sedimentary.ore_block
        else bt
      else bt)
    (if y ≤ surfaceSandDepth x then BiomeType.Sand.primary_block
      else BiomeType.Sedimentary.primary_block)

/-- One column of `Chunk::new_surface`'s loop: the optional decorative palm
block above the hill line, then every row from the hill line down filled with
the sand/sedimentary vein rule. -/
def surfaceColStep (g : Grid) (x : Nat) : Grid :=
  let g1 := if listGetD surfaceTreeVals x 0 = 1 then
      updateGrid g (surfaceHillTop x - 1) x
        (some { block_type := BlockType.PalmTreeBlock, entity := none })
    else g
  (List.range' (surfaceHillTop x) (CHUNK_HEIGHT - surfaceHillTop x)).foldl
    (fun g2 y => updateGrid g2 y x (some { block_type := surfaceCellType x y, entity := none }))
    g1

/-- `Chunk::new_surface` from `world.rs`. -/
def Chunk.new_surface : Chunk :=
  { blocks := (List.range CHUNK_WIDTH).foldl surfaceColStep emptyGrid, chunk_number := 0 }

theorem foldl_or_const {β : Type} (f : β → Vein → β) (c : β)
    (h : ∀ b v, f b v = b ∨ f b v = c) :
    ∀ (l : List Vein) (b0 : β), l.foldl f b0 = b0 ∨ l.foldl f b0 = c := by
  intro l
  induction l with
  | nil => intro b0; left; rfl
  | cons v vs ih =>
    intro b0
    rcases h b0 v with he | he
    · rw [List.foldl_cons, he]
      exact ih b0
    · rw [List.foldl_cons, he]
      rcases ih c with h2 | h2
      · rw [h2]; right; rfl
      · right; exact h2

theorem surfaceCellType_cases (x y : Nat) :
    (y ≤ surfaceSandDepth x ∧
      (surfaceCellType x y = BlockType.Sand ∨ surfaceCellType x y = BlockType.Clay)) ∨
    (surfaceSandDepth x < y ∧
      (surfaceCellType x y = BlockType.Limestone ∨ surfaceCellType x y = BlockType.Coal)) := by
  by_cases hs : y ≤ surfaceSandDepth x
  · left
    refine ⟨hs, ?_⟩
    unfold surfaceCellType
    simp only [if_pos hs]
    have h := foldl_or_const
      (fun bt v =>
        if v.chunk_number = 0 then
          if dist_to_vein v (x : ℚ) (y : ℚ) < v.thickness_sq / 2 then BiomeType.Sand.ore_block
          else bt
        else bt)
      BiomeType.Sand.ore_block
      (by
        intro b v
        by_cases h0 : v.chunk_number = 0
        · by_cases hd : dist_to_vein v (x : ℚ) (y : ℚ) < v.thickness_sq / 2
          · right; simp [h0, hd]
          · left; simp [h0, hd]
        · left; simp [h0])
      surfaceVeins BiomeType.Sand.primary_block
    rcases h with h | h
    · rw [h]; left; rfl
    · rw [h]; right; rfl
  · right
    refine ⟨by omega, ?_⟩
    unfold surfaceCellType
    simp only [if_neg hs]
    have h := foldl_or_const
      (fun bt v =>
        if v.chunk_number = 0 then
          if dist_to_vein v (x : ℚ) (y : ℚ) < v.thickness_sq / 2 then
            BiomeType.Sedimentary.ore_block
          else bt
        else bt)
      BiomeType.Sedimentary.ore_block
      (by
        intro b v
        by_cases h0 : v.chunk_number = 0
        · by_cases hd : dist_to_vein v (x : ℚ) (y : ℚ) < v.thickness_sq / 2
          · right; simp [h0, hd]
          · left; simp [h0, hd]
        · left; simp [h0])
      surfaceVeins BiomeType.Sedimentary.primary_block
    rcases h with h | h
    · rw [h]; left; rfl
    · rw [h]; right; rfl

theorem surfaceCellType_ne_void (x y : Nat) : surfaceCellType x y ≠ BlockType.CaveVoid := by
  rcases surfaceCellType_cases x y with ⟨_, h | h⟩ | ⟨_, h | h⟩ <;> rw [h] <;> decide

/-- A grid storing no cave-void block anywhere. -/
def noVoidGrid (g : Grid) : Prop :=
  ∀ y x, ((g y x).map Block.block_type) ≠ some BlockType.CaveVoid

theorem pred_foldl {α : Type} (P : Grid → Prop) (f : Grid → α → Grid)
    (hf : ∀ g a, P g → P (f g a)) :
    ∀ (l : List α) (g : Grid), P g → P (l.foldl f g) := by
  intro l
  induction l with
  | nil => intro g hg; exact hg
  | cons a rest ih => intro g hg; exact ih (f g a) (hf g a hg)

theorem noVoid_update (g : Grid) (r c : Nat) (v : Option Block)
    (hg : noVoidGrid g) (hv : (v.map Block.block_type) ≠ some BlockType.CaveVoid) :
    noVoidGrid (updateGrid g r c v) := by
  intro y x
  by_cases h : y = r ∧ x = c
  · have he : updateGrid g r c v y x = v := by
      unfold updateGrid
      rw [if_pos h]
    rw [he]
    exact hv
  · rw [updateGrid_other g r c v y x h]
    exact hg y x

theorem surfaceColStep_noVoid (g : Grid) (x : Nat) (hg : noVoidGrid g) :
    noVoidGrid (surfaceColStep g x) := by
  unfold surfaceColStep
  apply pred_foldl noVoidGrid _ ?_ _ _ ?_
  · intro g' yy hg'
    apply noVoid_update _ _ _ _ hg'
    have := surfaceCellType_ne_void x yy
    simpa using this
  · by_cases ht : listGetD surfaceTreeVals x 0 = 1
    · rw [if_pos ht]
      apply noVoid_update _ _ _ _ hg
      simp
    · rw [if_neg ht]
      exact hg

theorem surface_noVoid : noVoidGrid (Chunk.new_surface).blocks := by
  simp only [Chunk.new_surface]
  apply pred_foldl noVoidGrid surfaceColStep (fun g x hg => surfaceColStep_noVoid g x hg)
  intro y x
  simp [emptyGrid]

/-- C4: the chunk builder never stores a cave-void block. For
`Chunk::new(depth)` at any depth, no cell holds a `CaveVoid` block, and every
cell whose cave-noise value exceeds the carving threshold is either empty or
holds only a tree block (`Trunk`/`Leaves`); `Chunk::new_surface()` stores no
`CaveVoid` block either. -/
theorem C4_no_cave_void_blocks (depth y x : Nat) :
    (((Chunk.new depth).blocks y x).map Block.block_type ≠ some BlockType.CaveVoid) ∧
    (PERLIN_CAVE_THRESHOLD < generate_perlin_noise depth BASE_SEED y x →
      (Chunk.new depth).blocks y x = none ∨
      ((Chunk.new depth).blocks y x).map Block.block_type = some BlockType.Trunk ∨
      ((Chunk.new depth).blocks y x).map Block.block_type = some BlockType.Leaves) ∧
    (((Chunk.new_surface).blocks y x).map Block.block_type ≠ some BlockType.CaveVoid) := by
  obtain ⟨h1, h2⟩ := chunkNew_gridOk depth y x
  refine ⟨?_, h2, surface_noVoid y x⟩
  intro hcontra
  cases hb : (Chunk.new depth).blocks y x with
  | none => rw [hb] at hcontra; simp at hcontra
  | some b =>
    rw [hb] at hcontra
    have hbt : b.block_type = BlockType.CaveVoid := by simpa using hcontra
    exact h1 b hb hbt

theorem C4_no_cave_void_blocks_witness :
    (PERLIN_CAVE_THRESHOLD < generate_perlin_noise 1 BASE_SEED 2 0) ∧
    ((Chunk.new 1).blocks 2 0 = none ∨
      ((Chunk.new 1).blocks 2 0).map Block.block_type = some BlockType.Trunk ∨
      ((Chunk.new 1).blocks 2 0).map Block.block_type = some BlockType.Leaves) := by
  have hper : PERLIN_CAVE_THRESHOLD < generate_perlin_noise 1 BASE_SEED 2 0 := by
    norm_num [PERLIN_CAVE_THRESHOLD, generate_perlin_noise, generate_seed, BASE_SEED]
  exact ⟨hper, (C4_no_cave_void_blocks 1 2 0).2.1 hper⟩

theorem surfaceColStep_other (g : Grid) (xc y x' : Nat) (hx : x' ≠ xc) :
    surfaceColStep g xc y x' = g y x' := by
  simp only [surfaceColStep]
  have hfold : ∀ (l : List Nat) (g2 : Grid),
      (l.foldl (fun g2 yy => updateGrid g2 yy xc
        (some { block_type := surfaceCellType xc yy, entity := none })) g2) y x' = g2 y x' := by
    intro l
    induction l with
    | nil => intro g2; rfl
    | cons a rest ih =>
      intro g2
      rw [List.foldl_cons, ih]
      exact updateGrid_other _ _ _ _ _ _ (fun h => hx h.2)
  rw [hfold]
  by_cases ht : listGetD surfaceTreeVals xc 0 = 1
  · rw [if_pos ht]
    exact updateGrid_other _ _ _ _ _ _ (fun h => hx h.2)
  · rw [if_neg ht]

/-- The final value of cell `(y, x)` of the surface chunk, as a function of
whatever the cell held before column `x` was processed. -/
def colFinal (x y : Nat) (prev : Option Block) : Option Block :=
  if surfaceHillTop x ≤ y ∧ y < CHUNK_HEIGHT then
    some { block_type := surfaceCellType x y, entity := none }
  else if listGetD surfaceTreeVals x 0 = 1 ∧ y = surfaceHillTop x - 1 then
    some { block_type := BlockType.PalmTreeBlock, entity := none }
  else prev

theorem rowfold_val (x : Nat) :
    ∀ (n s : Nat) (g : Grid) (y : Nat),
      ((List.range' s n).foldl
        (fun g2 yy => updateGrid g2 yy x
          (some { block_type := surfaceCellType x yy, entity := none })) g) y x =
      if s ≤ y ∧ y < s + n then some { block_type := surfaceCellType x y, entity := none }
      else g y x := by
  intro n
  induction n with
  | zero =>
    intro s g y
    rw [if_neg (by omega)]
    rfl
  | succ n ih =>
    intro s g y
    have hr : List.range' s (n + 1) = s :: List.range' (s + 1) n := rfl
    rw [hr, List.foldl_cons, ih]
    by_cases h1 : s + 1 ≤ y ∧ y < s + 1 + n
    · rw [if_pos h1, if_pos (by omega)]
    · rw [if_neg h1]
      by_cases h2 : y = s
      · subst h2
        rw [updateGrid_same, if_pos (by omega)]
      · rw [updateGrid_other _ _ _ _ _ _ (fun hc => h2 hc.1), if_neg (by omega)]

theorem surfaceColStep_val (g : Grid) (x y : Nat) :
    surfaceColStep g x y x = colFinal x y (g y x) := by
  simp only [surfaceColStep, colFinal]
  rw [rowfold_val x]
  by_cases h1 : surfaceHillTop x ≤ y ∧ y < surfaceHillTop x + (CHUNK_HEIGHT - surfaceHillTop x)
  · rw [if_pos h1, if_pos (by omega : surfaceHillTop x ≤ y ∧ y < CHUNK_HEIGHT)]
  · rw [if_neg h1, if_neg (by omega : ¬ (surfaceHillTop x ≤ y ∧ y < CHUNK_HEIGHT))]
    by_cases ht1 : listGetD surfaceTreeVals x 0 = 1
    · rw [if_pos ht1]
      by_cases hy : y = surfaceHillTop x - 1
      · subst hy
        rw [updateGrid_same, if_pos ⟨ht1, rfl⟩]
      · rw [updateGrid_other _ _ _ _ _ _ (fun hc => hy hc.1), if_neg (fun hc => hy hc.2)]
    · rw [if_neg ht1, if_neg (fun hc => ht1 hc.1)]

theorem foldcols_notmem (x y : Nat) :
    ∀ (l : List Nat) (g : Grid), ¬ x ∈ l → (l.foldl surfaceColStep g) y x = g y x := by
  intro l
  induction l with
  | nil => intro g _; rfl
  | cons a rest ih =>
    intro g hx
    rw [List.foldl_cons, ih _ (fun h => hx (List.mem_cons_of_mem _ h))]
    exact surfaceColStep_other g a y x (fun h => hx (h ▸ List.mem_cons_self _ _))

theorem surface_cell_eq (x y : Nat) (hx : x < CHUNK_WIDTH) :
    (Chunk.new_surface).blocks y x = colFinal x y none := by
  simp only [Chunk.new_surface]
  have aux : ∀ (l : List Nat), l.Nodup → x ∈ l → ∀ g : Grid,
      (l.foldl surfaceColStep g) y x = colFinal x y (g y x) := by
    intro l
    induction l with
    | nil =>
      intro _ hmem
      simp at hmem
    | cons a rest ih =>
      intro hnd hmem g
      rw [List.foldl_cons]
      rcases List.mem_cons.mp hmem with heq | hmem'
      · subst heq
        rw [foldcols_notmem x y rest _ (List.nodup_cons.mp hnd).1]
        exact surfaceColStep_val g x y
      · have hne : x ≠ a := by
          intro h
          subst h
          exact (List.nodup_cons.mp hnd).1 hmem'
        rw [ih (List.nodup_cons.mp hnd).2 hmem' (surfaceColStep g a),
          surfaceColStep_other g a y x hne]
  rw [aux (List.range CHUNK_WIDTH) (List.nodup_range _) (List.mem_range.mpr hx) emptyGrid]
  rfl

/-- C7: the surface chunk (chunk 0, built with the hard-coded base seed)
stores no cave-void cell; every cell at or below its column's hill line holds
exactly the sand/sedimentary vein-rule block — a Sand-biome block (`Sand` or
its ore `Clay`) at or above the sand-depth curve, a Sedimentary-biome block
(`Limestone` or its ore `Coal`) strictly below it; and every stored block is
one of these four layer types or the decorative palm marker placed above the
hill line — no cave carving is applied anywhere. -/
theorem C7_surface_chunk_layers (x y : Nat) (hx : x < CHUNK_WIDTH) (hy : y < CHUNK_HEIGHT) :
    (((Chunk.new_surface).blocks y x).map Block.block_type ≠ some BlockType.CaveVoid) ∧
    (surfaceHillTop x ≤ y →
      (Chunk.new_surface).blocks y x =
        some { block_type := surfaceCellType x y, entity := none } ∧
      (y ≤ surfaceSandDepth x →
        surfaceCellType x y = BlockType.Sand ∨ surfaceCellType x y = BlockType.Clay) ∧
      (surfaceSandDepth x < y →
        surfaceCellType x y = BlockType.Limestone ∨ surfaceCellType x y = BlockType.Coal)) ∧
    (∀ b, (Chunk.new_surface).blocks y x = some b →
      b.block_type = BlockType.Sand ∨ b.block_type = BlockType.Clay ∨
      b.block_type = BlockType.Limestone ∨ b.block_type = BlockType.Coal ∨
      b.block_type = BlockType.PalmTreeBlock) := by
  refine ⟨surface_noVoid y x, ?_, ?_⟩
  · intro hht
    rw [surface_cell_eq x y hx]
    unfold colFinal
    rw [if_pos ⟨hht, hy⟩]
    refine ⟨rfl, ?_, ?_⟩
    · intro hs
      rcases surfaceCellType_cases x y with ⟨_, h⟩ | ⟨hgt, _⟩
      · exact h
      · omega
    · intro hs
      rcases surfaceCellType_cases x y with ⟨hle, _⟩ | ⟨_, h⟩
      · omega
      · exact h
  · intro b hb
    rw [surface_cell_eq x y hx] at hb
    unfold colFinal at hb
    by_cases h1 : surfaceHillTop x ≤ y ∧ y < CHUNK_HEIGHT
    · rw [if_pos h1] at hb
      have hbt : b.block_type = surfaceCellType x y := by
        have h' := Option.some.inj hb
        rw [← h']
      rw [hbt]
      rcases surfaceCellType_cases x y with ⟨_, h | h⟩ | ⟨_, h | h⟩ <;> rw [h] <;> simp
    · rw [if_neg h1] at hb
      by_cases h2 : listGetD surfaceTreeVals x 0 = 1 ∧ y = surfaceHillTop x - 1
      · rw [if_pos h2] at hb
        have hbt : b.block_type = BlockType.PalmTreeBlock := by
          have h' := Option.some.inj hb
          rw [← h']
        rw [hbt]
        simp
      · rw [if_neg h2] at hb
        cases hb

theorem C7_surface_chunk_layers_witness :
    ((0 : Nat) < CHUNK_WIDTH) ∧ ((63 : Nat) < CHUNK_HEIGHT) ∧
    (((Chunk.new_surface).blocks 63 0).map Block.block_type ≠ some BlockType.CaveVoid) := by
  exact ⟨by decide, by decide, (C7_surface_chunk_layers 0 63 (by decide) (by decide)).1⟩
